import Mathlib

/-!
Verification of the age/DOB coherence engine, entity record generators and
batch update engine of `main.py` (a command-driven synthetic-record
generator).

The development shallowly embeds the program:

* Python `datetime.date` values are triples `(year, month, day)` of naturals;
  Python's proleptic-Gregorian ordinal (`date.toordinal`, with ordinal 1 =
  0001-01-01) is `toOrdinal`, and the inverse used by `date ± timedelta` is
  `fromOrdinal`.  Date arithmetic that would raise `OverflowError`
  (result outside `[1, 3652059]`, i.e. year outside `[1, 9999]`) or
  `ValueError` (invalid `replace`) is modelled with `Option`.
* the pseudo-random source is an explicit stream `List Nat`, consumed from
  the head; `random.randint(a, b)` becomes `a + head % (b + 1 - a)`, which
  satisfies exactly the contract `a ≤ result ≤ b` that the proofs may use.
  All theorems are universally quantified over the stream.
* `faker`-produced strings are uninterpreted: each call consumes one stream
  element and yields a tagged string.  No claim inspects these values.
* records are insertion-ordered association lists with unique keys,
  mirroring Python `dict` semantics (`recSet` updates in place or appends,
  `recPop` deletes).  A value `Value.vDate d` stands for the ISO-8601 string
  `d.isoformat()` stored by the program (`fromisoformat` round-trips it).
* "today" (`datetime.today()`) is an explicit parameter of every embedded
  function; theorems assume it is a valid modern date (`GoodToday`).
-/

/-- A Python `datetime.date`: year, month, day. -/
structure Date where
  year : Nat
  month : Nat
  day : Nat
deriving DecidableEq, Repr

/-- Gregorian leap-year test (as in Python's `calendar.isleap`). -/
def isLeap (y : Nat) : Bool :=
  y % 4 == 0 && (y % 100 != 0 || y % 400 == 0)

/-- Days in a month, by leap flag. -/
def dimB (ℓ : Bool) (m : Nat) : Nat :=
  if m = 2 then (if ℓ then 29 else 28)
  else if m = 4 ∨ m = 6 ∨ m = 9 ∨ m = 11 then 30
  else 31

/-- Days in a month of a given year. -/
def daysInMonth (y m : Nat) : Nat :=
  dimB (isLeap y) m

/-- A valid Python date: year in `[1, 9999]`, month and day in range. -/
def ValidDate (d : Date) : Prop :=
  1 ≤ d.year ∧ d.year ≤ 9999 ∧ 1 ≤ d.month ∧ d.month ≤ 12 ∧
    1 ≤ d.day ∧ d.day ≤ daysInMonth d.year d.month

instance (d : Date) : Decidable (ValidDate d) := by
  unfold ValidDate; infer_instance

/-- Number of leap years `x'` with `1 ≤ x' ≤ x`. -/
def leaps (x : Nat) : Nat :=
  x / 4 + x / 400 - x / 100

/-- Days strictly before January 1 of year `y` (so `dBY 1 = 0`). -/
def dBY (y : Nat) : Nat :=
  365 * (y - 1) + leaps (y - 1)

/-- Days before month `m` in a year whose leap flag is `ℓ`. -/
def dbm (ℓ : Bool) (m : Nat) : Nat :=
  let e : Nat := if ℓ then 1 else 0
  match m with
  | 1 => 0
  | 2 => 31
  | 3 => 59 + e
  | 4 => 90 + e
  | 5 => 120 + e
  | 6 => 151 + e
  | 7 => 181 + e
  | 8 => 212 + e
  | 9 => 243 + e
  | 10 => 273 + e
  | 11 => 304 + e
  | _ => 334 + e

/-- Python's `date.toordinal`: days since 0000-12-31 (ordinal 1 = 0001-01-01). -/
def toOrdinal (d : Date) : Nat :=
  dBY d.year + dbm (isLeap d.year) d.month + d.day

/-- Python's maximal ordinal, `date(9999, 12, 31).toordinal()`. -/
def maxOrdinal : Nat := 3652059

/-- Year containing day number `n0` (days since 0001-01-01, zero-based):
an estimate from the 400-year cycle, corrected by direct comparison. -/
def yearOf (n0 : Nat) : Nat :=
  if dBY (400 * n0 / 146097 + 2) ≤ n0 then 400 * n0 / 146097 + 2
  else if dBY (400 * n0 / 146097 + 1) ≤ n0 then 400 * n0 / 146097 + 1
  else 400 * n0 / 146097

/-- Month containing zero-based day-of-year `doy` (leap flag `ℓ`):
thresholds are the `dbm` cumulative table. -/
def monthOf (ℓ : Bool) (doy : Nat) : Nat :=
  let e : Nat := if ℓ then 1 else 0
  if doy < 31 then 1
  else if doy < 59 + e then 2
  else if doy < 90 + e then 3
  else if doy < 120 + e then 4
  else if doy < 151 + e then 5
  else if doy < 181 + e then 6
  else if doy < 212 + e then 7
  else if doy < 243 + e then 8
  else if doy < 273 + e then 9
  else if doy < 304 + e then 10
  else if doy < 334 + e then 11
  else 12

/-- Python's `date.fromordinal` (for `n ≥ 1`). -/
def fromOrdinal (n : Nat) : Date :=
  let n0 := n - 1
  let y := yearOf n0
  let doy := n0 - dBY y
  let ℓ := isLeap y
  let m := monthOf ℓ doy
  ⟨y, m, doy - dbm ℓ m + 1⟩

theorem isLeap_iff (y : Nat) :
    isLeap y = true ↔ (y % 4 = 0 ∧ (y % 100 ≠ 0 ∨ y % 400 = 0)) := by
  simp [isLeap]

theorem leaps_succ (x : Nat) :
    leaps (x + 1) = leaps x + (if isLeap (x + 1) then 1 else 0) := by
  by_cases hl : isLeap (x + 1) = true
  · rw [if_pos hl]; rw [isLeap_iff] at hl; unfold leaps; omega
  · rw [if_neg hl]; rw [isLeap_iff] at hl; unfold leaps; omega

theorem leaps_mono {x x' : Nat} (h : x ≤ x') : leaps x ≤ leaps x' := by
  induction x' with
  | zero => simp_all
  | succ n ih =>
    rcases Nat.lt_or_ge x (n + 1) with h1 | h1
    · have h2 := ih (by omega)
      have h3 := leaps_succ n
      split at h3 <;> omega
    · have hx : x = n + 1 := by omega
      subst hx; exact Nat.le_refl _

theorem dBY_succ {y : Nat} (hy : 1 ≤ y) :
    dBY (y + 1) = dBY y + 365 + (if isLeap y then 1 else 0) := by
  have h := leaps_succ (y - 1)
  rw [show y - 1 + 1 = y by omega] at h
  unfold dBY
  simp only [Nat.add_sub_cancel]
  by_cases hl : isLeap y = true
  · rw [if_pos hl] at h ⊢; omega
  · rw [if_neg hl] at h ⊢; omega

theorem dBY_mono {y y' : Nat} (h : y ≤ y') : dBY y ≤ dBY y' := by
  unfold dBY
  have := leaps_mono (show y - 1 ≤ y' - 1 by omega)
  omega

/-- Scaled two-sided linear estimate of `leaps`. -/
theorem leaps_400 (x : Nat) :
    97 * x ≤ 400 * leaps x + 699 ∧ 400 * leaps x ≤ 97 * x + 396 := by
  unfold leaps; omega

/-- Scaled two-sided linear estimate of `dBY`. -/
theorem dBY_400 (y : Nat) :
    146097 * (y - 1) ≤ 400 * dBY y + 699 ∧ 400 * dBY y ≤ 146097 * (y - 1) + 396 := by
  unfold dBY
  have := leaps_400 (y - 1)
  omega

theorem yearOf_spec (n0 : Nat) :
    1 ≤ yearOf n0 ∧ dBY (yearOf n0) ≤ n0 ∧ n0 < dBY (yearOf n0 + 1) := by
  unfold yearOf
  generalize hq : 400 * n0 / 146097 = q
  have h1 : 146097 * q ≤ 400 * n0 ∧ 400 * n0 < 146097 * q + 146097 := by omega
  clear hq
  split
  · have d4 := dBY_400 (q + 2 + 1)
    omega
  · split
    · rw [show q + 1 + 1 = q + 2 by omega]
      omega
    · have hq1 : 1 ≤ q := by
        by_contra hc
        have hq0 : q = 0 := by omega
        subst hq0
        simp only [show dBY (0 + 1) = 0 from rfl] at *
        omega
      have dq := dBY_400 q
      omega

set_option maxHeartbeats 1000000 in
theorem monthOf_spec (ℓ : Bool) (doy : Nat) (hd : doy < dbm ℓ 12 + dimB ℓ 12) :
    1 ≤ monthOf ℓ doy ∧ monthOf ℓ doy ≤ 12 ∧
      dbm ℓ (monthOf ℓ doy) ≤ doy ∧
      doy < dbm ℓ (monthOf ℓ doy) + dimB ℓ (monthOf ℓ doy) := by
  cases ℓ <;>
    (simp only [dbm, dimB] at hd; norm_num at hd; unfold monthOf; norm_num;
     split_ifs <;> simp only [dbm, dimB] <;> norm_num <;> omega)

set_option maxHeartbeats 1000000 in
theorem fromOrdinal_spec (n : Nat) (h : 1 ≤ n) :
    1 ≤ (fromOrdinal n).year ∧ 1 ≤ (fromOrdinal n).month ∧ (fromOrdinal n).month ≤ 12 ∧
      1 ≤ (fromOrdinal n).day ∧
      (fromOrdinal n).day ≤ daysInMonth (fromOrdinal n).year (fromOrdinal n).month ∧
      toOrdinal (fromOrdinal n) = n := by
  obtain ⟨hy1, hy2, hy3⟩ := yearOf_spec (n - 1)
  have hbit := dBY_succ hy1
  simp only [fromOrdinal, toOrdinal, daysInMonth]
  by_cases hl : isLeap (yearOf (n - 1)) = true
  · rw [if_pos hl] at hbit
    simp only [hl]
    have hd : n - 1 - dBY (yearOf (n - 1)) < dbm true 12 + dimB true 12 := by
      simp only [dbm, dimB]; norm_num; omega
    have hm := monthOf_spec true (n - 1 - dBY (yearOf (n - 1))) hd
    simp only [dbm, dimB] at hd
    norm_num at hd
    omega
  · rw [if_neg hl] at hbit
    rw [Bool.not_eq_true] at hl
    simp only [hl]
    have hd : n - 1 - dBY (yearOf (n - 1)) < dbm false 12 + dimB false 12 := by
      simp only [dbm, dimB]; norm_num; omega
    have hm := monthOf_spec false (n - 1 - dBY (yearOf (n - 1))) hd
    simp only [dbm, dimB] at hd
    norm_num at hd
    omega

/-- Python's `<` on dates: lexicographic on (year, month, day). -/
def dateLtB (a b : Date) : Bool :=
  a.year < b.year ||
    (a.year == b.year &&
      (a.month < b.month || (a.month == b.month && a.day < b.day)))

theorem dbm_add_dimB_le :
    ∀ ℓ : Bool, ∀ m < 13, 1 ≤ m →
      dbm ℓ m + dimB ℓ m ≤ 365 + (if ℓ then 1 else 0) := by decide

theorem dbm_chain :
    ∀ ℓ : Bool, ∀ m < 13, ∀ m' < 13, m < m' → 1 ≤ m →
      dbm ℓ m + dimB ℓ m ≤ dbm ℓ m' := by decide

theorem dBY_10000 : dBY 10000 = 3652059 := by decide

theorem toOrdinal_lower (d : Date) (hd : 1 ≤ d.day) :
    dBY d.year + 1 ≤ toOrdinal d ∧ 365 * (d.year - 1) + 1 ≤ toOrdinal d := by
  unfold toOrdinal dBY
  omega

theorem toOrdinal_le_max (d : Date) (hd : ValidDate d) : toOrdinal d ≤ maxOrdinal := by
  obtain ⟨h1, h2, h3, h4, h5, h6⟩ := hd
  have hb := dbm_add_dimB_le (isLeap d.year) d.month (by omega) h3
  have hs := dBY_succ h1
  have hm := dBY_mono (show d.year + 1 ≤ 10000 by omega)
  have h10 := dBY_10000
  unfold daysInMonth at h6
  unfold toOrdinal maxOrdinal
  split at hb <;> split at hs <;> omega

theorem fromOrdinal_validDate (n : Nat) (h1 : 1 ≤ n) (h2 : n ≤ maxOrdinal) :
    ValidDate (fromOrdinal n) := by
  obtain ⟨g1, g2, g3, g4, g5, g6⟩ := fromOrdinal_spec n h1
  refine ⟨g1, ?_, g2, g3, g4, g5⟩
  by_contra hc
  have hy : 10000 ≤ (fromOrdinal n).year := by omega
  have hm := dBY_mono hy
  have h10 := dBY_10000
  have hlow := toOrdinal_lower (fromOrdinal n) g4
  unfold maxOrdinal at h2
  omega

theorem toOrdinal_lt (a b : Date) (ha : ValidDate a) (hb : ValidDate b)
    (h : dateLtB a b = true) : toOrdinal a < toOrdinal b := by
  obtain ⟨a1, a2, a3, a4, a5, a6⟩ := ha
  obtain ⟨b1, b2, b3, b4, b5, b6⟩ := hb
  simp only [dateLtB, Bool.or_eq_true, Bool.and_eq_true, decide_eq_true_eq,
    beq_iff_eq] at h
  unfold daysInMonth at a6 b6
  rcases h with h | ⟨hy, h | ⟨hm, h⟩⟩
  · have hc1 := dbm_add_dimB_le (isLeap a.year) a.month (by omega) a3
    have hc2 := dBY_succ a1
    have hc3 := dBY_mono (show a.year + 1 ≤ b.year by omega)
    have hc4 := toOrdinal_lower b b5
    unfold toOrdinal
    split at hc1 <;> split at hc2 <;> omega
  · have hc1 := dbm_chain (isLeap a.year) a.month (by omega) b.month (by omega) h a3
    unfold toOrdinal
    rw [← hy]
    omega
  · unfold toOrdinal
    rw [← hy, ← hm]
    omega

theorem dateLtB_total (a b : Date) (h : a ≠ b) :
    dateLtB a b = true ∨ dateLtB b a = true := by
  cases a with
  | mk ya ma da =>
    cases b with
    | mk yb mb db =>
      simp only [ne_eq, Date.mk.injEq, not_and] at h
      simp only [dateLtB, Bool.or_eq_true, Bool.and_eq_true, decide_eq_true_eq,
        beq_iff_eq]
      by_cases h1 : ya = yb
      · by_cases h2 : ma = mb
        · have h3 : da ≠ db := by
            intro hc; exact h h1 h2 hc
          omega
        · omega
      · omega

theorem toOrdinal_inj (a b : Date) (ha : ValidDate a) (hb : ValidDate b)
    (h : toOrdinal a = toOrdinal b) : a = b := by
  by_contra hc
  rcases dateLtB_total a b hc with ht | ht
  · have := toOrdinal_lt a b ha hb ht; omega
  · have := toOrdinal_lt b a hb ha ht; omega

theorem leaps_diff_le (x k : Nat) :
    leaps (x + k) ≤ leaps x + k / 4 + k / 400 + 2 := by
  unfold leaps; omega

/-- Two February 29ths cannot be exactly `365 * a` days apart for small `a`:
the Feb-29 fallback correction and a Feb-29 "today" cannot coincide. -/
theorem feb29_gap (W Y a : Nat) (ha1 : 1 ≤ a) (ha2 : a ≤ 1000)
    (hWl : isLeap W = true) (hW1 : 1 ≤ W) (hY1 : 1 ≤ Y)
    (heq : dBY W + 365 * a = dBY Y) : False := by
  have hmon : W < Y := by
    by_contra hc
    have := dBY_mono (show Y ≤ W by omega)
    unfold dBY at *
    omega
  have hsucc := leaps_succ (W - 1)
  rw [show W - 1 + 1 = W by omega, if_pos hWl] at hsucc
  have hmono := leaps_mono (show W ≤ Y - 1 by omega)
  have hdiff := leaps_diff_le (W - 1) (Y - W)
  rw [show W - 1 + (Y - W) = Y - 1 by omega] at hdiff
  unfold dBY at heq
  omega

/-- `random.randint(lo, hi)` on the explicit stream: consumes one element.
For `lo ≤ hi` the result lies in `[lo, hi]` (Python raises otherwise; all
call sites in main.py use constant ranges with `lo ≤ hi`). -/
def randint (s : List Nat) (lo hi : Nat) : Nat × List Nat :=
  (lo + s.headD 0 % (hi + 1 - lo), s.tail)

/-- Python tuple comparison `(a, b) < (c, d)`. -/
def pairLtB (a b c d : Nat) : Bool :=
  a < c || (a == c && b < d)

/-- `calculate_age_from_dob` (main.py:133): whole years between `dob` and
today, one less if the birthday has not yet occurred this year. -/
def calculate_age_from_dob (today dob : Date) : Int :=
  (today.year : Int) - (dob.year : Int) -
    (if pairLtB today.month today.day dob.month dob.day then 1 else 0)

/-- `d + timedelta(days = k)`; `none` models Python's `OverflowError` when
the result falls outside `[date.min, date.max]`. -/
def addDays (d : Date) (k : Int) : Option Date :=
  if 1 ≤ (toOrdinal d : Int) + k ∧ (toOrdinal d : Int) + k ≤ (maxOrdinal : Int) then
    some (fromOrdinal ((toOrdinal d : Int) + k).toNat)
  else none

/-- `d - timedelta(days = k)`. -/
def subDays (d : Date) (k : Int) : Option Date := addDays d (-k)

/-- `candidate.replace(year = y)` keeping month `m` and day `day`;
`none` models `ValueError` (year out of `[1, 9999]` or Feb 29 in a
non-leap year). -/
def dateReplace (y : Int) (m day : Nat) : Option Date :=
  if ValidDate ⟨y.toNat, m, day⟩ then some ⟨y.toNat, m, day⟩ else none

/-- The 20-attempt sampling loop of `generate_birthdate_for_age`
(main.py:175-178).  `none` = exception, `some (none, s)` = exhausted,
`some (some d, s)` = a candidate matching the target age. -/
def genLoopBD (today : Date) (age : Int) (startD : Date) (delta : Nat) :
    Nat → List Nat → Option (Option Date × List Nat)
  | 0, s => some (none, s)
  | fuel + 1, s =>
    match addDays startD ((randint s 0 delta).1 : Int) with
    | none => none
    | some cand =>
      if calculate_age_from_dob today cand = age then some (some cand, (randint s 0 delta).2)
      else genLoopBD today age startD delta fuel (randint s 0 delta).2

/-- `generate_birthdate_for_age` (main.py:167-188): sample in the window
`[today - (age+1)*365 days, today - age*365 days]` up to 20 times; on
exhaustion take the window end and shift its year by the residual age
difference, substituting March 1 if that hits an invalid Feb 29.
`none` models an uncaught exception.  (`random.randint(0, delta if
delta > 0 else 0)` equals `randint(0, delta)` since `delta ≥ 0`.) -/
def generate_birthdate_for_age (today : Date) (age : Int) (s : List Nat) :
    Option (Date × List Nat) :=
  match subDays today ((age + 1) * 365) with
  | none => none
  | some startD0 =>
    match subDays today (age * 365) with
    | none => none
    | some endD0 =>
      let p := if dateLtB endD0 startD0 then (endD0, startD0) else (startD0, endD0)
      let delta : Nat := (max ((toOrdinal p.2 : Int) - (toOrdinal p.1 : Int)) 0).toNat
      match genLoopBD today age p.1 delta 20 s with
      | none => none
      | some (some d, s1) => some (d, s1)
      | some (none, s1) =>
        let ad : Int := age - calculate_age_from_dob today p.2
        if ad = 0 then some (p.2, s1)
        else
          match dateReplace ((p.2.year : Int) - ad) p.2.month p.2.day with
          | some c => some (c, s1)
          | none =>
            match dateReplace ((p.2.year : Int) - ad) 3 1 with
            | some c => some (c, s1)
            | none => none

/-- `random_age_and_dob` (main.py:191-196). -/
def random_age_and_dob (today : Date) (lo hi : Nat) (s : List Nat) :
    Option ((Int × Date) × List Nat) :=
  match generate_birthdate_for_age today ((randint s lo hi).1 : Int) (randint s lo hi).2 with
  | some (d, s2) => some ((((randint s lo hi).1 : Int), d), s2)
  | none => none

theorem genLoopBD_spec (today : Date) (age : Int) (startD : Date) (delta : Nat)
    (hs1 : 1 ≤ toOrdinal startD) (hs2 : toOrdinal startD + delta ≤ maxOrdinal) :
    ∀ fuel s, ∃ r s', genLoopBD today age startD delta fuel s = some (r, s') ∧
      ∀ d, r = some d → ValidDate d ∧ calculate_age_from_dob today d = age := by
  intro fuel
  induction fuel with
  | zero =>
    intro s
    exact ⟨none, s, rfl, by intro d hd; cases hd⟩
  | succ n ih =>
    intro s
    have hmod : s.headD 0 % (delta + 1 - 0) < delta + 1 - 0 :=
      Nat.mod_lt _ (by omega)
    have hoff : (randint s 0 delta).1 ≤ delta := by
      unfold randint
      omega
    have hcand : addDays startD ((randint s 0 delta).1 : Int) =
        some (fromOrdinal (((toOrdinal startD : Int) + ((randint s 0 delta).1 : Int)).toNat)) := by
      unfold addDays
      rw [if_pos (by constructor <;> omega)]
    have hvc : ValidDate (fromOrdinal (((toOrdinal startD : Int) + ((randint s 0 delta).1 : Int)).toNat)) :=
      fromOrdinal_validDate _ (by omega) (by omega)
    simp only [genLoopBD, hcand]
    by_cases hg : calculate_age_from_dob today
        (fromOrdinal (((toOrdinal startD : Int) + ((randint s 0 delta).1 : Int)).toNat)) = age
    · rw [if_pos hg]
      refine ⟨_, _, rfl, ?_⟩
      intro d hd
      cases hd
      exact ⟨hvc, hg⟩
    · rw [if_neg hg]
      exact ih (randint s 0 delta).2

theorem pairLtB_irrefl (x y : Nat) : pairLtB x y x y = false := by
  simp [pairLtB]

theorem dimB_ne2 (ℓ ℓ' : Bool) (m : Nat) (hm : m ≠ 2) : dimB ℓ m = dimB ℓ' m := by
  unfold dimB
  rw [if_neg hm, if_neg hm]

set_option maxHeartbeats 1600000 in
/-- Main specification of `generate_birthdate_for_age`: for a nonnegative
age with `age + 2 ≤ today.year`, it returns a valid date without raising,
and (for ages up to 1000) the returned date's computed age is exactly the
requested one. -/
theorem generate_birthdate_spec (today : Date) (a : Nat) (s : List Nat)
    (hv : ValidDate today) (hy : a + 2 ≤ today.year) :
    ∃ d s', generate_birthdate_for_age today (a : Int) s = some (d, s') ∧
      ValidDate d ∧ (a ≤ 1000 → calculate_age_from_dob today d = (a : Int)) := by
  obtain ⟨t1, t2, t3, t4, t5, t6⟩ := hv
  have htl := toOrdinal_lower today t5
  have htu := toOrdinal_le_max today ⟨t1, t2, t3, t4, t5, t6⟩
  have hTlow : 365 * (a + 1) + 1 ≤ toOrdinal today := by
    have h1 := dBY_mono hy
    have h2 : 365 * (a + 1) ≤ dBY (a + 2) := by unfold dBY; omega
    omega
  unfold generate_birthdate_for_age subDays addDays
  rw [if_pos (show 1 ≤ (toOrdinal today : Int) + -(((a : Int) + 1) * 365) ∧
      (toOrdinal today : Int) + -(((a : Int) + 1) * 365) ≤ (maxOrdinal : Int) by
    constructor <;> omega)]
  rw [if_pos (show 1 ≤ (toOrdinal today : Int) + -((a : Int) * 365) ∧
      (toOrdinal today : Int) + -((a : Int) * 365) ≤ (maxOrdinal : Int) by
    constructor <;> omega)]
  obtain ⟨e1, e2, e3, e4, e5, e6⟩ :=
    fromOrdinal_spec (((toOrdinal today : Int) + -((a : Int) * 365)).toNat) (by omega)
  have hev : ValidDate (fromOrdinal (((toOrdinal today : Int) + -((a : Int) * 365)).toNat)) :=
    fromOrdinal_validDate _ (by omega) (by omega)
  obtain ⟨f1, f2, f3, f4, f5, f6⟩ :=
    fromOrdinal_spec (((toOrdinal today : Int) + -(((a : Int) + 1) * 365)).toNat) (by omega)
  have hsv : ValidDate (fromOrdinal (((toOrdinal today : Int) + -(((a : Int) + 1) * 365)).toNat)) :=
    fromOrdinal_validDate _ (by omega) (by omega)
  have hswapF : ¬(dateLtB
      (fromOrdinal (((toOrdinal today : Int) + -((a : Int) * 365)).toNat))
      (fromOrdinal (((toOrdinal today : Int) + -(((a : Int) + 1) * 365)).toNat)) = true) := by
    intro hc
    have := toOrdinal_lt _ _ hev hsv hc
    omega
  dsimp only
  rw [if_neg hswapF]
  dsimp only
  have hdel : (max
      ((toOrdinal (fromOrdinal (((toOrdinal today : Int) + -((a : Int) * 365)).toNat)) : Int) -
       (toOrdinal (fromOrdinal (((toOrdinal today : Int) + -(((a : Int) + 1) * 365)).toNat)) : Int)) 0).toNat
      = 365 := by
    rw [e6, f6, max_eq_left (by omega)]
    omega
  rw [hdel]
  obtain ⟨r, s1, hrun, hprop⟩ := genLoopBD_spec today (a : Int)
      (fromOrdinal (((toOrdinal today : Int) + -(((a : Int) + 1) * 365)).toNat)) 365
      (by omega) (by omega) 20 s
  rw [hrun]
  cases r with
  | some d =>
    exact ⟨d, s1, rfl, (hprop d rfl).1, fun _ => (hprop d rfl).2⟩
  | none =>
    dsimp only
    by_cases had : (a : Int) - calculate_age_from_dob today
        (fromOrdinal (((toOrdinal today : Int) + -((a : Int) * 365)).toNat)) = 0
    · rw [if_pos had]
      exact ⟨_, s1, rfl, hev, fun _ => by omega⟩
    · rw [if_neg had]
      set E : Date := fromOrdinal (((toOrdinal today : Int) + -((a : Int) * 365)).toNat) with hE
      set c : Int := calculate_age_from_dob today E with hc0
      set Q : Int := (E.year : Int) - ((a : Int) - c) with hQ
      clear_value Q c E
      obtain ⟨bI, hbI, hBdef⟩ : ∃ bv : Int, (bv = 0 ∨ bv = 1) ∧
          (if pairLtB today.month today.day E.month E.day then (1:Int) else 0) = bv := by
        split
        · exact ⟨1, Or.inr rfl, rfl⟩
        · exact ⟨0, Or.inl rfl, rfl⟩
      have hcalc : c = (today.year : Int) - (E.year : Int) - bI := by
        rw [hc0, ← hBdef]; rfl
      have hQval : Q = (today.year : Int) - (a : Int) - bI := by
        rw [hQ, hcalc]; ring
      have hQ19 : 1 ≤ Q ∧ Q ≤ 9999 := by
        constructor <;> omega
      have hQtoNat : (Q.toNat : Int) = Q := by omega
      unfold dateReplace
      by_cases hval : ValidDate ⟨Q.toNat, E.month, E.day⟩
      · rw [if_pos hval]
        refine ⟨_, s1, rfl, hval, fun _ => ?_⟩
        have hcalc2 : calculate_age_from_dob today ⟨Q.toNat, E.month, E.day⟩ =
            (today.year : Int) - (Q.toNat : Int) - bI := by
          rw [← hBdef]; rfl
        rw [hcalc2]
        omega
      · rw [if_neg hval]
        by_cases hval2 : ValidDate ⟨Q.toNat, 3, 1⟩
        · rw [if_pos hval2]
          refine ⟨_, s1, rfl, hval2, fun h1000 => ?_⟩
          -- the first replace failed, so E is a Feb 29 and the shifted year is not leap
          by_cases hm2 : E.month = 2
          · have hdd : ¬(E.day ≤ daysInMonth Q.toNat E.month) := by
              intro hcon
              exact hval ⟨hval2.1, hval2.2.1, e2, e3, e4, hcon⟩
            rw [hm2] at hdd
            have he5 : E.day ≤ daysInMonth E.year 2 := by rw [← hm2]; exact e5
            unfold daysInMonth dimB at hdd he5
            norm_num at hdd he5
            have hkey : isLeap E.year = true ∧ E.day = 29 := by
              cases hx : isLeap E.year <;> cases hx2 : isLeap Q.toNat
              · rw [hx] at he5; rw [hx2] at hdd
                norm_num at he5 hdd
                omega
              · rw [hx] at he5; rw [hx2] at hdd
                norm_num at he5 hdd
                omega
              · rw [hx] at he5; rw [hx2] at hdd
                norm_num at he5 hdd
                exact ⟨rfl, by omega⟩
              · rw [hx] at he5; rw [hx2] at hdd
                norm_num at he5 hdd
                omega
            have hlW : isLeap E.year = true := hkey.1
            have hd29 : E.day = 29 := hkey.2
            by_cases htd : today.month = 2 ∧ today.day = 29
            · exfalso
              have ha1 : 1 ≤ a := by
                by_contra h0
                have ha0 : a = 0 := by omega
                subst ha0
                have heqo : toOrdinal E = toOrdinal today := by rw [e6]; omega
                have hET : E = today := toOrdinal_inj _ _ hev ⟨t1, t2, t3, t4, t5, t6⟩ heqo
                apply had
                have hz : calculate_age_from_dob today today = 0 := by
                  unfold calculate_age_from_dob
                  rw [pairLtB_irrefl]
                  simp
                rw [hc0, hET, hz]
                simp
              have hEo : toOrdinal E = dBY E.year + dbm (isLeap E.year) E.month + E.day := rfl
              have hTo : toOrdinal today =
                  dBY today.year + dbm (isLeap today.year) today.month + today.day := rfl
              rw [hm2, hd29] at hEo
              rw [htd.1, htd.2] at hTo
              have hdbmE : dbm (isLeap E.year) 2 = 31 := rfl
              have hdbmT : dbm (isLeap today.year) 2 = 31 := rfl
              rw [hdbmE] at hEo
              rw [hdbmT] at hTo
              have he6 : toOrdinal E = (((toOrdinal today : Int) + -((a : Int) * 365)).toNat) := e6
              have heqN : dBY E.year + 365 * a = dBY today.year := by omega
              exact feb29_gap E.year today.year a ha1 (by omega) hlW e1 t1 heqN
            · have ht29 : today.month = 2 → today.day ≤ 29 := by
                intro h2
                have h6 := t6
                rw [h2] at h6
                unfold daysInMonth dimB at h6
                norm_num at h6
                split at h6 <;> omega
              have hcalc3 : calculate_age_from_dob today ⟨Q.toNat, 3, 1⟩ =
                  (today.year : Int) - (Q.toNat : Int) -
                  (if pairLtB today.month today.day 3 1 then 1 else 0) := rfl
              rw [hcalc3]
              have hb3 : (if pairLtB today.month today.day 3 1 then (1:Int) else 0) = bI := by
                rw [← hBdef, hm2, hd29]
                by_cases hA : pairLtB today.month today.day 3 1 = true <;>
                  by_cases hB : pairLtB today.month today.day 2 29 = true
                · rw [if_pos hA, if_pos hB]
                · exfalso
                  simp only [pairLtB, Bool.or_eq_true, Bool.and_eq_true,
                    decide_eq_true_eq, beq_iff_eq] at hA hB
                  have htm2 : today.month = 2 := by omega
                  have h29 := ht29 htm2
                  have htdn : ¬(today.month = 2 ∧ today.day = 29) := htd
                  have htd29 : ¬(today.day = 29) := fun hcon => htdn ⟨htm2, hcon⟩
                  omega
                · exfalso
                  simp only [pairLtB, Bool.or_eq_true, Bool.and_eq_true,
                    decide_eq_true_eq, beq_iff_eq] at hA hB
                  omega
                · rw [if_neg hA, if_neg hB]
              rw [hb3]
              omega
          · exfalso
            apply hval
            refine ⟨?_, ?_, e2, e3, e4, ?_⟩
            · show 1 ≤ Q.toNat
              omega
            · show Q.toNat ≤ 9999
              omega
            · show E.day ≤ daysInMonth Q.toNat E.month
              have hdm : daysInMonth Q.toNat E.month = daysInMonth E.year E.month := by
                unfold daysInMonth
                exact dimB_ne2 _ _ _ hm2
              rw [hdm]
              exact e5
        · exfalso
          apply hval2
          refine ⟨?_, ?_, by norm_num, by norm_num, by norm_num, ?_⟩
          · show 1 ≤ Q.toNat
            omega
          · show Q.toNat ≤ 9999
            omega
          · show 1 ≤ daysInMonth Q.toNat 3
            unfold daysInMonth dimB
            norm_num

/-- The execution-time clock: a valid, modern date. -/
def GoodToday (t : Date) : Prop := ValidDate t ∧ 100 ≤ t.year

instance (t : Date) : Decidable (GoodToday t) := by
  unfold GoodToday; infer_instance

theorem random_age_and_dob_spec (today : Date) (lo hi : Nat) (s : List Nat)
    (hv : ValidDate today) (hlohi : lo ≤ hi) (hge : hi + 2 ≤ today.year) (hbd : hi ≤ 1000) :
    ∃ a d s', random_age_and_dob today lo hi s = some ((a, d), s') ∧
      a = ((randint s lo hi).1 : Int) ∧
      (lo : Int) ≤ a ∧ a ≤ (hi : Int) ∧ ValidDate d ∧
      calculate_age_from_dob today d = a := by
  have hmod : s.headD 0 % (hi + 1 - lo) < hi + 1 - lo := Nat.mod_lt _ (by omega)
  have hrange : lo ≤ (randint s lo hi).1 ∧ (randint s lo hi).1 ≤ hi := by
    unfold randint
    omega
  obtain ⟨d, s', heq, hvd, hex⟩ := generate_birthdate_spec today (randint s lo hi).1
    (randint s lo hi).2 hv (by omega)
  unfold random_age_and_dob
  rw [heq]
  exact ⟨_, d, s', rfl, rfl, by omega, by omega, hvd, hex (by omega)⟩

theorem chToNat_ofNat (n : Nat) (h : n < 55296) : (Char.ofNat n).toNat = n := by
  unfold Char.ofNat
  rw [dif_pos (Or.inl h)]
  rfl

theorem toLower_toUpper (ch : Char) : (ch.toUpper).toLower = ch.toLower := by
  unfold Char.toUpper Char.toLower
  dsimp only
  by_cases h : ch.toNat ≥ 97 ∧ ch.toNat ≤ 122
  · rw [if_pos h]
    have h1 : (Char.ofNat (ch.toNat - 32)).toNat = ch.toNat - 32 :=
      chToNat_ofNat _ (by omega)
    rw [h1]
    rw [if_pos (show ch.toNat - 32 ≥ 65 ∧ ch.toNat - 32 ≤ 90 by omega)]
    rw [if_neg (show ¬(ch.toNat ≥ 65 ∧ ch.toNat ≤ 90) by omega)]
    rw [show ch.toNat - 32 + 32 = ch.toNat by omega]
    exact Char.ofNat_toNat ch
  · rw [if_neg h]

theorem toLower_toLower (ch : Char) : (ch.toLower).toLower = ch.toLower := by
  unfold Char.toLower
  dsimp only
  by_cases h : ch.toNat ≥ 65 ∧ ch.toNat ≤ 90
  · rw [if_pos h]
    have h1 : (Char.ofNat (ch.toNat + 32)).toNat = ch.toNat + 32 :=
      chToNat_ofNat _ (by omega)
    rw [h1]
    rw [if_neg (show ¬(ch.toNat + 32 ≥ 65 ∧ ch.toNat + 32 ≤ 90) by omega)]
  · rw [if_neg h, if_neg h]

/-- Python `str.lower()` (ASCII, which covers every label this program uses). -/
def lowerStr (t : String) : String := String.mk (t.data.map Char.toLower)

/-- Helper for Python `str.title()`: the Bool tracks whether the previous
character was alphabetic. -/
def pyTitleAux : Bool → List Char → List Char
  | _, [] => []
  | prev, ch :: rest =>
    (if ch.isAlpha then (if prev then ch.toLower else ch.toUpper) else ch) ::
      pyTitleAux ch.isAlpha rest

/-- Python `str.title()`. -/
def pyTitle (t : String) : String := String.mk (pyTitleAux false t.data)

/-- Python `str.strip()`. -/
def pyStrip (t : String) : String :=
  String.mk (((t.data.dropWhile (fun ch => ch.isWhitespace)).reverse.dropWhile
    (fun ch => ch.isWhitespace)).reverse)

theorem lowerStr_pyTitleAux (prev : Bool) (l : List Char) :
    (pyTitleAux prev l).map Char.toLower = l.map Char.toLower := by
  induction l generalizing prev with
  | nil => rfl
  | cons ch rest ih =>
    unfold pyTitleAux
    simp only [List.map_cons, ih]
    congr 1
    split
    · split
      · exact toLower_toLower ch
      · exact toLower_toUpper ch
    · rfl

/-- Title-casing does not affect case-insensitive comparison. -/
theorem lowerStr_pyTitle (t : String) : lowerStr (pyTitle t) = lowerStr t := by
  unfold lowerStr pyTitle
  exact congrArg String.mk (lowerStr_pyTitleAux false t.data)

/-- A record value: `vDate d` stands for the ISO-8601 string `d.isoformat()`;
`vFloat n` is a 2-decimal float stored in hundredths. -/
inductive Value where
  | vInt : Int → Value
  | vDate : Date → Value
  | vStr : String → Value
  | vFloat : Int → Value
deriving DecidableEq, Repr

/-- A record: insertion-ordered mapping with unique keys (a Python dict). -/
abbrev Record := List (String × Value)

/-- `record[k]` (read). -/
def recGet : Record → String → Option Value
  | [], _ => none
  | (k2, v) :: rest, k => if k2 = k then some v else recGet rest k

/-- `record[k] = v`: update in place if the exact key exists, else append. -/
def recSet : Record → String → Value → Record
  | [], k, v => [(k, v)]
  | (k2, v2) :: rest, k, v =>
    if k2 = k then (k2, v) :: rest else (k2, v2) :: recSet rest k v

/-- `record.pop(k)`. -/
def recPop : Record → String → Record
  | [], _ => []
  | (k2, v2) :: rest, k => if k2 = k then rest else (k2, v2) :: recPop rest k

/-- `find_field_key` (main.py:199-204): first key matching case-insensitively. -/
def find_field_key : Record → String → Option String
  | [], _ => none
  | (k2, _) :: rest, k =>
    if lowerStr k2 = lowerStr k then some k2 else find_field_key rest k

def lookupAL (al : List (String × String)) (k : String) : Option String :=
  (al.find? (fun kv => kv.1 == k)).map (fun kv => kv.2)

/-- `FIELD_ALIASES` (main.py:48-56). -/
def FIELD_ALIASES : List (String × String) :=
  [("university", "college name"), ("college", "college name"),
   ("school", "school name"), ("bank", "bank name"), ("job", "job title"),
   ("aba", "aba number"), ("account", "account number")]

/-- `FIELD_ALIASES.get(k, k)`. -/
def aliasF (k : String) : String := (lookupAL FIELD_ALIASES k).getD k

/-- `ENTITY_ALIASES` (main.py:58-67). -/
def ENTITY_ALIASES : List (String × String) :=
  [("student", "student"), ("students", "student"),
   ("college_student", "college_student"), ("college_students", "college_student"),
   ("bank_customer", "bank_customer"), ("bank_customers", "bank_customer"),
   ("employee", "employee"), ("employees", "employee")]

/-- `normalize_entity_type` (main.py:312-317); `none` argument / empty string
are falsy. -/
def normalizeEntityType : Option String → Option String
  | none => none
  | some t => if t = "" then none else lookupAL ENTITY_ALIASES (lowerStr t)

/-- `AGE_RANGES.get(nt, (5, 80))` (main.py:125-130, 348). -/
def AGE_RANGES (nt : Option String) : Nat × Nat :=
  if nt = some "student" then (5, 18)
  else if nt = some "college_student" then (18, 25)
  else if nt = some "bank_customer" then (18, 80)
  else if nt = some "employee" then (22, 65)
  else (5, 80)

/-- A faker-produced string (name, email, city, word, ...): uninterpreted,
one stream element consumed. -/
def fakeStr (tag : String) (s : List Nat) : Value × List Nat :=
  (.vStr (tag ++ Nat.repr (s.headD 0)), s.tail)

/-- `random.choice(xs)`. -/
def pyChoice (xs : List String) (s : List Nat) : Value × List Nat :=
  (.vStr (xs.getD (s.headD 0 % xs.length) ""), s.tail)

/-- `round(random.uniform(lo, hi), 2)`, stored in hundredths. -/
def uniform2 (lo hi : Nat) (s : List Nat) : Value × List Nat :=
  (.vFloat (Int.ofNat (lo * 100 + s.headD 0 % (hi * 100 - lo * 100 + 1))), s.tail)

def colleges : List String :=
  ["MIT", "Stanford University", "Harvard University", "Yale University",
   "Princeton University", "UCLA", "UC Berkeley", "Columbia University"]

def majors : List String :=
  ["Computer Science", "Biology", "Business", "Engineering", "Mathematics",
   "Economics"]

def banks : List String := ["Chase", "Bank of America", "Citi", "Wells Fargo", "PNC"]

def jobTitles : List String :=
  ["Software Engineer", "Manager", "Data Analyst", "Consultant", "Designer"]

def schoolPrefixes : List String :=
  ["Greenwood", "Riverdale", "Sunrise", "St. Thomas", "Oakwood",
   "Blue Ridge", "Cedar Grove", "Hillcrest", "Maple Leaf", "Silver Lake"]

/-- `generate_school_name` (main.py:208-219). -/
def generate_school_name (age : Int) (s : List Nat) : Value × List Nat :=
  let schoolType := if age ≤ 10 then "Elementary School"
    else if 11 ≤ age ∧ age ≤ 14 then "Middle School"
    else "High School"
  (.vStr ((schoolPrefixes.getD (s.headD 0 % 10) "") ++ " " ++ schoolType), s.tail)

/-- `FIELD_MAP.get(key, lambda: fake.word())()` (main.py:14-46): the
zero-argument call used by the generator fallbacks.  The `grade`,
`school name` and `year` entries take a positional `age` argument, so a
bare call raises `TypeError` (`none`). -/
def fieldMapBare (today : Date) (key : String) (s : List Nat) :
    Option (Value × List Nat) :=
  if key = "name" then some (fakeStr "name" s)
  else if key = "email" then some (fakeStr "email" s)
  else if key = "phone" then some (fakeStr "phone" s)
  else if key = "address" then some (fakeStr "address" s)
  else if key = "city" then some (fakeStr "city" s)
  else if key = "state" then some (fakeStr "state" s)
  else if key = "country" then some (fakeStr "country" s)
  else if key = "zipcode" then some (fakeStr "zipcode" s)
  else if key = "dob" then
    some (.vDate (fromOrdinal (toOrdinal today - (5 * 365 + s.headD 0 % 6206))), s.tail)
  else if key = "age" then some (.vInt ((randint s 5 22).1 : Int), s.tail)
  else if key = "gpa" then some (uniform2 2 4 s)
  else if key = "grade" then none
  else if key = "school name" then none
  else if key = "college name" then some (pyChoice colleges s)
  else if key = "major" then some (pyChoice majors s)
  else if key = "year" then none
  else if key = "bank name" then some (pyChoice banks s)
  else if key = "aba number" then
    some (.vStr (Nat.repr (100000000 + s.headD 0 % 900000000)), s.tail)
  else if key = "account number" then
    some (.vStr (Nat.repr (1000000000 + s.headD 0 % 9000000000)), s.tail)
  else if key = "balance" then some (uniform2 1000 100000 s)
  else if key = "job title" then some (pyChoice jobTitles s)
  else if key = "company" then some (fakeStr "company" s)
  else some (fakeStr "word" s)

/-- The shared per-field loop shape of the four generators. -/
def buildRecord (step : String → List Nat → Option (Value × List Nat)) :
    List String → Record → List Nat → Option (Record × List Nat)
  | [], r, s => some (r, s)
  | f :: fs, r, s =>
    match step f s with
    | none => none
    | some (v, s2) => buildRecord step fs (recSet r f v) s2

/-- One field of `generate_student_record` (main.py:225-237). -/
def studentStep (today : Date) (age : Int) (dob : Date) (grade : Int)
    (f : String) (s : List Nat) : Option (Value × List Nat) :=
  let fl := aliasF (lowerStr f)
  if fl = "age" then some (.vInt age, s)
  else if fl = "dob" then some (.vDate dob, s)
  else if fl = "grade" then some (.vInt grade, s)
  else if fl = "school name" then some (generate_school_name age s)
  else fieldMapBare today fl s

/-- `generate_student_record` (main.py:221-238). -/
def generate_student_record (today : Date) (fields : List String) (s : List Nat) :
    Option (Record × List Nat) :=
  match random_age_and_dob today 5 18 s with
  | none => none
  | some ((age, dob), s1) =>
    buildRecord (studentStep today age dob (max 1 (min 12 (age - 5 + 1)))) fields [] s1

/-- One field of `generate_college_student_record` (main.py:244-260). -/
def collegeStep (today : Date) (age : Int) (dob : Date) (year : Int)
    (f : String) (s : List Nat) : Option (Value × List Nat) :=
  let fl := aliasF (lowerStr f)
  if fl = "age" then some (.vInt age, s)
  else if fl = "dob" then some (.vDate dob, s)
  else if fl = "year" then some (.vInt year, s)
  else if fl = "college name" then some (pyChoice colleges s)
  else if fl = "major" then some (pyChoice majors s)
  else if fl = "gpa" then some (uniform2 2 4 s)
  else fieldMapBare today fl s

/-- `generate_college_student_record` (main.py:240-261): note `year` is a
fresh `random.randint(1, 4)` drawn right after the age/DOB pair. -/
def generate_college_student_record (today : Date) (fields : List String)
    (s : List Nat) : Option (Record × List Nat) :=
  match random_age_and_dob today 18 25 s with
  | none => none
  | some ((age, dob), s1) =>
    buildRecord (collegeStep today age dob ((randint s1 1 4).1 : Int)) fields []
      (randint s1 1 4).2

/-- One field of `generate_bank_customer_record` (main.py:266-282). -/
def bankStep (today : Date) (age : Int) (dob : Date) (f : String) (s : List Nat) :
    Option (Value × List Nat) :=
  let fl := aliasF (lowerStr f)
  if fl = "age" then some (.vInt age, s)
  else if fl = "dob" then some (.vDate dob, s)
  else if fl = "balance" then some (uniform2 1000 100000 s)
  else if fl = "aba number" then
    some (.vStr (Nat.repr (100000000 + s.headD 0 % 900000000)), s.tail)
  else if fl = "account number" then
    some (.vStr (Nat.repr (1000000000 + s.headD 0 % 9000000000)), s.tail)
  else if fl = "bank name" then some (pyChoice banks s)
  else fieldMapBare today fl s

/-- `generate_bank_customer_record` (main.py:263-283). -/
def generate_bank_customer_record (today : Date) (fields : List String)
    (s : List Nat) : Option (Record × List Nat) :=
  match random_age_and_dob today 18 80 s with
  | none => none
  | some ((age, dob), s1) => buildRecord (bankStep today age dob) fields [] s1

/-- One field of `generate_employee_record` (main.py:288-300). -/
def employeeStep (today : Date) (age : Int) (dob : Date) (f : String)
    (s : List Nat) : Option (Value × List Nat) :=
  let fl := aliasF (lowerStr f)
  if fl = "age" then some (.vInt age, s)
  else if fl = "dob" then some (.vDate dob, s)
  else if fl = "job title" then some (pyChoice jobTitles s)
  else if fl = "company" then some (fakeStr "company" s)
  else fieldMapBare today fl s

/-- `generate_employee_record` (main.py:285-301). -/
def generate_employee_record (today : Date) (fields : List String)
    (s : List Nat) : Option (Record × List Nat) :=
  match random_age_and_dob today 22 65 s with
  | none => none
  | some ((age, dob), s1) => buildRecord (employeeStep today age dob) fields [] s1

/-- `generate_entity_record` (main.py:320-324): dispatch on the normalized
entity type, falling back to `{f: fake.word() for f in fields}`. -/
def generate_entity_record (today : Date) (entityType : Option String)
    (fields : List String) (s : List Nat) : Option (Record × List Nat) :=
  match normalizeEntityType entityType with
  | some nt =>
    if nt = "student" then generate_student_record today fields s
    else if nt = "college_student" then generate_college_student_record today fields s
    else if nt = "bank_customer" then generate_bank_customer_record today fields s
    else if nt = "employee" then generate_employee_record today fields s
    else buildRecord (fun _ s2 => some (fakeStr "word" s2)) fields [] s
  | none => buildRecord (fun _ s2 => some (fakeStr "word" s2)) fields [] s

/-- `session_data`: the last generated batch and its entity-type tag. -/
structure Session where
  lastGenerated : Option (List Record)
  lastType : Option String
deriving DecidableEq, Repr

/-- `int(x)` as used on record values (main.py:358): succeeds exactly on
integer values; faker words, dates and floats in these records raise
(caught, yielding `None`). -/
def intOfValue : Value → Option Int
  | .vInt n => some n
  | _ => none

/-- `parse_dob_value` (main.py:142-152): ISO strings (`vDate`) parse, other
values do not. -/
def parse_dob_value : Value → Option Date
  | .vDate d => some d
  | _ => none

/-- The add-fields loop of `update_last_generated` (main.py:396-417). -/
def update_fields_loop (today : Date) (aLo aHi : Nat) (nty : Option String)
    (dobRequested : Bool) (dobKey : Option String) :
    List (String × String) → Record → Option Int → Option Date → List Nat →
      Option (Record × List Nat)
  | [], r, _, _, s => some (r, s)
  | (f, nf) :: rest, r, dA, dB, s =>
    if nf = "age" then
      match dA with
      | some ag =>
        update_fields_loop today aLo aHi nty dobRequested dobKey rest
          (recSet r f (.vInt ag)) (some ag) dB s
      | none =>
        match random_age_and_dob today aLo aHi s with
        | none => none
        | some ((na, nd), s2) =>
          if dobRequested ∧ dB = none then
            update_fields_loop today aLo aHi nty dobRequested dobKey rest
              (recSet r f (.vInt na)) (some na) (some nd) s2
          else
            match dobKey with
            | some dk =>
              if ¬dobRequested then
                update_fields_loop today aLo aHi nty dobRequested dobKey rest
                  (recSet (recSet r dk (.vDate nd)) f (.vInt na)) (some na) dB s2
              else
                update_fields_loop today aLo aHi nty dobRequested dobKey rest
                  (recSet r f (.vInt na)) (some na) dB s2
            | none =>
              update_fields_loop today aLo aHi nty dobRequested dobKey rest
                (recSet r f (.vInt na)) (some na) dB s2
    else if nf = "dob" then
      match dB with
      | some d =>
        update_fields_loop today aLo aHi nty dobRequested dobKey rest
          (recSet r f (.vDate d)) dA (some d) s
      | none =>
        match dA with
        | some ag =>
          match generate_birthdate_for_age today ag s with
          | none => none
          | some (nd, s2) =>
            update_fields_loop today aLo aHi nty dobRequested dobKey rest
              (recSet r f (.vDate nd)) dA (some nd) s2
        | none =>
          match random_age_and_dob today aLo aHi s with
          | none => none
          | some ((_, nd), s2) =>
            update_fields_loop today aLo aHi nty dobRequested dobKey rest
              (recSet r f (.vDate nd)) dA (some nd) s2
    else
      match generate_entity_record today nty [f] s with
      | none => none
      | some (r1, s2) =>
        match recGet r1 f with
        | none => none
        | some v =>
          update_fields_loop today aLo aHi nty dobRequested dobKey rest
            (recSet r f v) dA dB s2

/-- The removal pass of `update_last_generated` (main.py:343-346). -/
def removal_pass (remF : List String) (r : Record) : Record :=
  remF.foldl (fun rc f =>
    match find_field_key rc f with
    | some k => recPop rc k
    | none => rc) r

/-- `int(record.get(k))` with TypeError/ValueError caught (main.py:356-360). -/
def lookupInt (r1 : Record) (k : String) : Option Int :=
  match recGet r1 k with
  | some v => intOfValue v
  | none => none

/-- `parse_dob_value(record.get(k))` (main.py:362). -/
def lookupDob (r1 : Record) (k : String) : Option Date :=
  match recGet r1 k with
  | some v => parse_dob_value v
  | none => none

/-- `existing_age` (main.py:352-360): the record's "Age" value parsed as int. -/
def existing_age (r1 : Record) : Option Int :=
  match find_field_key r1 "Age" with
  | some k => lookupInt r1 k
  | none => none

/-- `existing_dob` (main.py:353-362). -/
def existing_dob (r1 : Record) : Option Date :=
  match find_field_key r1 "Dob" with
  | some k => lookupDob r1 k
  | none => none

/-- `desired_age` before the branch chain (main.py:367-371). -/
def desired_age_pre (t : Date) (ageRequested : Bool) (r1 : Record) : Option Int :=
  if ageRequested then
    match existing_dob r1 with
    | some d => some (calculate_age_from_dob t d)
    | none => existing_age r1
  else none

/-- `desired_dob` before the branch chain (main.py:373-377); may draw. -/
def dob_side (t : Date) (dobRequested : Bool) (r1 : Record) (s : List Nat) :
    Option (Option Date × List Nat) :=
  if dobRequested then
    match existing_age r1 with
    | some ag =>
      match generate_birthdate_for_age t ag s with
      | some (d, s2) => some (some d, s2)
      | none => none
    | none => some (existing_dob r1, s)
  else some (none, s)

/-- The coherence branch chain (main.py:379-394); returns the desired age,
desired DOB, the possibly backfilled record and the stream. -/
def coherence_branch (t : Date) (aLo aHi : Nat) (ageRequested dobRequested : Bool)
    (dobKey : Option String) (r1 : Record)
    (desiredAge : Option Int) (desiredDob0 : Option Date) (s0 : List Nat) :
    Option (Option Int × Option Date × Record × List Nat) :=
  if ageRequested ∧ dobRequested then
    match desiredAge, desiredDob0 with
    | none, none =>
      match random_age_and_dob t aLo aHi s0 with
      | some ((na, nd), s2) => some (some na, some nd, r1, s2)
      | none => none
    | none, some d => some (some (calculate_age_from_dob t d), some d, r1, s0)
    | some ag, none =>
      match generate_birthdate_for_age t ag s0 with
      | some (nd, s2) => some (some ag, some nd, r1, s2)
      | none => none
    | some ag, some d => some (some ag, some d, r1, s0)
  else if ageRequested ∧ desiredAge = none then
    match random_age_and_dob t aLo aHi s0 with
    | some ((na, nd), s2) =>
      match dobKey with
      | some dk =>
        if ¬dobRequested then
          some (some na, desiredDob0, recSet r1 dk (.vDate nd), s2)
        else some (some na, desiredDob0, r1, s2)
      | none => some (some na, desiredDob0, r1, s2)
    | none => none
  else if dobRequested ∧ desiredDob0 = none then
    match existing_age r1 with
    | some ag =>
      match generate_birthdate_for_age t ag s0 with
      | some (nd, s2) => some (desiredAge, some nd, r1, s2)
      | none => none
    | none =>
      match random_age_and_dob t aLo aHi s0 with
      | some ((_, nd), s2) => some (desiredAge, some nd, r1, s2)
      | none => none
  else some (desiredAge, desiredDob0, r1, s0)

/-- One record of `update_last_generated`'s main loop (main.py:341-418). -/
def update_record (t : Date) (aLo aHi : Nat) (nty : Option String)
    (addPairs : List (String × String)) (remF : List String)
    (r : Record) (s : List Nat) : Option (Record × List Nat) :=
  let r1 := removal_pass remF r
  let nAdd := addPairs.map Prod.snd
  let ageRequested := nAdd.contains "age"
  let dobRequested := nAdd.contains "dob"
  let dobKey := find_field_key r1 "Dob"
  let desiredAge := desired_age_pre t ageRequested r1
  match dob_side t dobRequested r1 s with
  | none => none
  | some (desiredDob0, s0) =>
    match coherence_branch t aLo aHi ageRequested dobRequested dobKey r1
        desiredAge desiredDob0 s0 with
    | none => none
    | some (dA, dB, r2, s3) =>
      update_fields_loop t aLo aHi nty dobRequested dobKey addPairs r2 dA dB s3

/-- The record-by-record loop of `update_last_generated`. -/
def updateBatch (today : Date) (aLo aHi : Nat) (nty : Option String)
    (addPairs : List (String × String)) (remF : List String) :
    List Record → List Nat → Option (List Record × List Nat)
  | [], s => some ([], s)
  | r :: rest, s =>
    match update_record today aLo aHi nty addPairs remF r s with
    | none => none
    | some (r2, s2) =>
      match updateBatch today aLo aHi nty addPairs remF rest s2 with
      | none => none
      | some (rest2, s3) => some (r2 :: rest2, s3)

/-- `update_last_generated` (main.py:328-423).  The Bool result is `true`
when the empty-session warning was printed (a falsy `last_generated`, i.e.
`None` or `[]`); `none` models an uncaught exception. -/
def update_last_generated (today : Date) (sess : Session)
    (addRaw remRaw : List String) (s : List Nat) :
    Option (Session × Bool × List Nat) :=
  match sess.lastGenerated with
  | none => some (sess, true, s)
  | some [] => some (sess, true, s)
  | some batch =>
    let addF := addRaw.map (fun f => pyTitle (pyStrip f))
    let remF := remRaw.map (fun f => pyTitle (pyStrip f))
    let nty : Option String :=
      match normalizeEntityType sess.lastType with
      | some v => some v
      | none => sess.lastType
    let nAdd := addF.map (fun f => aliasF (lowerStr f))
    let pr := AGE_RANGES nty
    match updateBatch today pr.1 pr.2 nty (addF.zip nAdd) remF batch s with
    | some (batch2, s2) => some ({ sess with lastGenerated := some batch2 }, false, s2)
    | none => none

theorem recGet_cons (p : String × Value) (rest : Record) (k : String) :
    recGet (p :: rest) k = if p.1 = k then some p.2 else recGet rest k := by
  rcases p with ⟨a, b⟩
  rfl

theorem recSet_mem (r : Record) (k : String) (v : Value) (k2 : String) (v2 : Value)
    (h : (k2, v2) ∈ recSet r k v) : (k2, v2) ∈ r ∨ (k2 = k ∧ v2 = v) := by
  induction r with
  | nil =>
    simp only [recSet, List.mem_singleton, Prod.mk.injEq] at h
    exact Or.inr h
  | cons p rest ih =>
    unfold recSet at h
    split at h
    · rename_i heq
      rcases List.mem_cons.mp h with h1 | h1
      · rcases Prod.mk.injEq .. ▸ h1 with ⟨h2, h3⟩
        exact Or.inr ⟨by rw [h2, heq], h3⟩
      · exact Or.inl (List.mem_cons_of_mem _ h1)
    · rcases List.mem_cons.mp h with h1 | h1
      · exact Or.inl (List.mem_cons.mpr (Or.inl h1))
      · rcases ih h1 with h2 | h2
        · exact Or.inl (List.mem_cons_of_mem _ h2)
        · exact Or.inr h2

theorem recPop_mem (r : Record) (k0 : String) (k2 : String) (v2 : Value)
    (h : (k2, v2) ∈ recPop r k0) : (k2, v2) ∈ r := by
  induction r with
  | nil => simp only [recPop] at h; cases h
  | cons p rest ih =>
    unfold recPop at h
    split at h
    · exact List.mem_cons_of_mem _ h
    · rcases List.mem_cons.mp h with h1 | h1
      · exact List.mem_cons.mpr (Or.inl h1)
      · exact List.mem_cons_of_mem _ (ih h1)

theorem recGet_recSet_self (r : Record) (k : String) (v : Value) :
    recGet (recSet r k v) k = some v := by
  induction r with
  | nil => simp [recSet, recGet]
  | cons p rest ih =>
    unfold recSet
    split
    · rename_i heq
      unfold recGet
      rw [if_pos heq]
    · rename_i hne
      unfold recGet
      rw [if_neg hne]
      exact ih

theorem recGet_recSet_ne (r : Record) (k k2 : String) (v : Value) (h : k2 ≠ k) :
    recGet (recSet r k v) k2 = recGet r k2 := by
  induction r with
  | nil =>
    show recGet [(k, v)] k2 = recGet [] k2
    rw [recGet_cons]
    exact if_neg (fun hc => h hc.symm)
  | cons p rest ih =>
    unfold recSet
    split
    · rename_i heq
      unfold recGet
      by_cases h2 : p.1 = k2
      · exact absurd (h2.symm.trans heq) h
      · rw [if_neg h2, if_neg h2]
    · unfold recGet
      by_cases h2 : p.1 = k2
      · rw [if_pos h2, if_pos h2]
      · rw [if_neg h2, if_neg h2]
        exact ih

theorem recGet_recPop_ne (r : Record) (k0 k : String) (h : k0 ≠ k) :
    recGet (recPop r k0) k = recGet r k := by
  induction r with
  | nil => rfl
  | cons p rest ih =>
    unfold recPop
    split
    · rename_i heq
      rw [recGet_cons, if_neg (heq ▸ h : p.1 ≠ k)]
    · rw [recGet_cons, recGet_cons]
      by_cases h2 : p.1 = k
      · rw [if_pos h2, if_pos h2]
      · rw [if_neg h2, if_neg h2]
        exact ih

theorem find_field_key_lower (r : Record) (t k : String)
    (h : find_field_key r t = some k) : lowerStr k = lowerStr t := by
  induction r with
  | nil => cases h
  | cons p rest ih =>
    unfold find_field_key at h
    split at h
    · rename_i heq
      cases h
      exact heq
    · exact ih h

theorem find_field_key_mem (r : Record) (t k : String)
    (h : find_field_key r t = some k) : ∃ v, (k, v) ∈ r := by
  induction r with
  | nil => cases h
  | cons p rest ih =>
    unfold find_field_key at h
    split at h
    · cases h
      exact ⟨p.2, List.mem_cons.mpr (Or.inl rfl)⟩
    · obtain ⟨v, hv⟩ := ih h
      exact ⟨v, List.mem_cons_of_mem _ hv⟩

theorem find_field_key_none (r : Record) (t : String)
    (h : find_field_key r t = none) :
    ∀ k v, (k, v) ∈ r → lowerStr k ≠ lowerStr t := by
  induction r with
  | nil => intro k v hm; cases hm
  | cons p rest ih =>
    unfold find_field_key at h
    split at h
    · cases h
    · rename_i hne
      intro k v hm
      rcases List.mem_cons.mp hm with h1 | h1
      · have : p.1 = k := congrArg Prod.fst h1.symm
        rw [← this]
        exact hne
      · exact ih h k v h1

theorem find_field_key_isSome (r : Record) (t k : String) (v : Value)
    (hm : (k, v) ∈ r) (hl : lowerStr k = lowerStr t) :
    ∃ k2, find_field_key r t = some k2 := by
  induction r with
  | nil => cases hm
  | cons p rest ih =>
    unfold find_field_key
    split
    · exact ⟨p.1, rfl⟩
    · rename_i hne
      rcases List.mem_cons.mp hm with h1 | h1
      · exact absurd ((congrArg (fun q => lowerStr q.1) h1).symm.trans hl) hne
      · exact ih h1

theorem recGet_mem (r : Record) (k : String) (v : Value)
    (h : recGet r k = some v) : (k, v) ∈ r := by
  induction r with
  | nil => cases h
  | cons p rest ih =>
    unfold recGet at h
    split at h
    · rename_i heq
      cases h
      have : p = (k, p.2) := by
        rcases p with ⟨a, b⟩
        simp_all
      rw [this] at *
      exact List.mem_cons.mpr (Or.inl rfl)
    · exact List.mem_cons_of_mem _ (ih h)

theorem recGet_of_mem (r : Record) (k : String) (v : Value)
    (h : (k, v) ∈ r) : ∃ v2, recGet r k = some v2 ∧ (k, v2) ∈ r := by
  induction r with
  | nil => cases h
  | cons p rest ih =>
    unfold recGet
    split
    · rename_i heq
      refine ⟨p.2, rfl, ?_⟩
      rcases p with ⟨a, b⟩
      cases heq
      exact List.mem_cons.mpr (Or.inl rfl)
    · rename_i hne
      rcases List.mem_cons.mp h with h1 | h1
      · exact absurd (congrArg Prod.fst h1.symm) hne
      · obtain ⟨v2, hv2, hm2⟩ := ih h1
        exact ⟨v2, hv2, List.mem_cons_of_mem _ hm2⟩

theorem aliasF_spec (x : String) :
    aliasF x = x ∨ aliasF x = "college name" ∨ aliasF x = "school name" ∨
      aliasF x = "bank name" ∨ aliasF x = "job title" ∨ aliasF x = "aba number" ∨
      aliasF x = "account number" := by
  by_cases h1 : x = "university"
  · subst h1; right; left; rfl
  by_cases h2 : x = "college"
  · subst h2; right; left; rfl
  by_cases h3 : x = "school"
  · subst h3; right; right; left; rfl
  by_cases h4 : x = "bank"
  · subst h4; right; right; right; left; rfl
  by_cases h5 : x = "job"
  · subst h5; right; right; right; right; left; rfl
  by_cases h6 : x = "aba"
  · subst h6; right; right; right; right; right; left; rfl
  by_cases h7 : x = "account"
  · subst h7; right; right; right; right; right; right; rfl
  left
  have hfind : List.find? (fun kv => kv.1 == x) FIELD_ALIASES = none := by
    unfold FIELD_ALIASES
    rw [List.find?_cons_of_neg _ (by simp only [beq_iff_eq]; exact fun hc => h1 hc.symm)]
    rw [List.find?_cons_of_neg _ (by simp only [beq_iff_eq]; exact fun hc => h2 hc.symm)]
    rw [List.find?_cons_of_neg _ (by simp only [beq_iff_eq]; exact fun hc => h3 hc.symm)]
    rw [List.find?_cons_of_neg _ (by simp only [beq_iff_eq]; exact fun hc => h4 hc.symm)]
    rw [List.find?_cons_of_neg _ (by simp only [beq_iff_eq]; exact fun hc => h5 hc.symm)]
    rw [List.find?_cons_of_neg _ (by simp only [beq_iff_eq]; exact fun hc => h6 hc.symm)]
    rw [List.find?_cons_of_neg _ (by simp only [beq_iff_eq]; exact fun hc => h7 hc.symm)]
    rfl
  unfold aliasF lookupAL
  rw [hfind]
  rfl

theorem aliasF_age (x : String) (h : aliasF x = "age") : x = "age" := by
  rcases aliasF_spec x with h2 | h2 | h2 | h2 | h2 | h2 | h2 <;> rw [h2] at h
  · exact h
  · exact absurd h (by decide)
  · exact absurd h (by decide)
  · exact absurd h (by decide)
  · exact absurd h (by decide)
  · exact absurd h (by decide)
  · exact absurd h (by decide)

theorem aliasF_dob (x : String) (h : aliasF x = "dob") : x = "dob" := by
  rcases aliasF_spec x with h2 | h2 | h2 | h2 | h2 | h2 | h2 <;> rw [h2] at h
  · exact h
  · exact absurd h (by decide)
  · exact absurd h (by decide)
  · exact absurd h (by decide)
  · exact absurd h (by decide)
  · exact absurd h (by decide)
  · exact absurd h (by decide)

theorem aliasF_grade (x : String) (h : aliasF x = "grade") : x = "grade" := by
  rcases aliasF_spec x with h2 | h2 | h2 | h2 | h2 | h2 | h2 <;> rw [h2] at h
  · exact h
  · exact absurd h (by decide)
  · exact absurd h (by decide)
  · exact absurd h (by decide)
  · exact absurd h (by decide)
  · exact absurd h (by decide)
  · exact absurd h (by decide)

theorem aliasF_year (x : String) (h : aliasF x = "year") : x = "year" := by
  rcases aliasF_spec x with h2 | h2 | h2 | h2 | h2 | h2 | h2 <;> rw [h2] at h
  · exact h
  · exact absurd h (by decide)
  · exact absurd h (by decide)
  · exact absurd h (by decide)
  · exact absurd h (by decide)
  · exact absurd h (by decide)
  · exact absurd h (by decide)

theorem buildRecord_mem (step : String → List Nat → Option (Value × List Nat))
    (KV : String → Value → Prop)
    (hstep : ∀ f s v s2, step f s = some (v, s2) → KV f v) :
    ∀ fields r0 s r s2, buildRecord step fields r0 s = some (r, s2) →
      ∀ k v, (k, v) ∈ r → (k, v) ∈ r0 ∨ KV k v := by
  intro fields
  induction fields with
  | nil =>
    intro r0 s r s2 h k v hm
    unfold buildRecord at h
    cases h
    exact Or.inl hm
  | cons f fs ih =>
    intro r0 s r s2 h k v hm
    unfold buildRecord at h
    split at h
    · cases h
    · rename_i v1 s1 heq
      rcases ih _ _ _ _ h k v hm with h1 | h1
      · rcases recSet_mem _ _ _ _ _ h1 with h2 | h2
        · exact Or.inl h2
        · right
          rw [h2.1, h2.2]
          exact hstep f s v1 s1 heq
      · exact Or.inr h1

theorem studentStep_kv (today : Date) (age : Int) (dob : Date) (grade : Int)
    (f : String) (s : List Nat) (v : Value) (s2 : List Nat)
    (hs : studentStep today age dob grade f s = some (v, s2)) :
    (lowerStr f = "age" → v = .vInt age) ∧ (lowerStr f = "dob" → v = .vDate dob) ∧
      (lowerStr f = "grade" → v = .vInt grade) := by
  simp only [studentStep] at hs
  refine ⟨fun hl => ?_, fun hl => ?_, fun hl => ?_⟩
  · rw [hl, show aliasF "age" = "age" from rfl, if_pos rfl] at hs
    injection hs with h1
    exact (congrArg Prod.fst h1).symm
  · rw [hl, show aliasF "dob" = "dob" from rfl] at hs
    rw [if_neg (by decide : ¬("dob" : String) = "age"), if_pos rfl] at hs
    injection hs with h1
    exact (congrArg Prod.fst h1).symm
  · rw [hl, show aliasF "grade" = "grade" from rfl] at hs
    rw [if_neg (by decide : ¬("grade" : String) = "age"),
      if_neg (by decide : ¬("grade" : String) = "dob"), if_pos rfl] at hs
    injection hs with h1
    exact (congrArg Prod.fst h1).symm

theorem collegeStep_kv (today : Date) (age : Int) (dob : Date) (year : Int)
    (f : String) (s : List Nat) (v : Value) (s2 : List Nat)
    (hs : collegeStep today age dob year f s = some (v, s2)) :
    (lowerStr f = "age" → v = .vInt age) ∧ (lowerStr f = "dob" → v = .vDate dob) ∧
      (lowerStr f = "year" → v = .vInt year) := by
  simp only [collegeStep] at hs
  refine ⟨fun hl => ?_, fun hl => ?_, fun hl => ?_⟩
  · rw [hl, show aliasF "age" = "age" from rfl, if_pos rfl] at hs
    injection hs with h1
    exact (congrArg Prod.fst h1).symm
  · rw [hl, show aliasF "dob" = "dob" from rfl] at hs
    rw [if_neg (by decide : ¬("dob" : String) = "age"), if_pos rfl] at hs
    injection hs with h1
    exact (congrArg Prod.fst h1).symm
  · rw [hl, show aliasF "year" = "year" from rfl] at hs
    rw [if_neg (by decide : ¬("year" : String) = "age"),
      if_neg (by decide : ¬("year" : String) = "dob"), if_pos rfl] at hs
    injection hs with h1
    exact (congrArg Prod.fst h1).symm

theorem bankStep_kv (today : Date) (age : Int) (dob : Date)
    (f : String) (s : List Nat) (v : Value) (s2 : List Nat)
    (hs : bankStep today age dob f s = some (v, s2)) :
    (lowerStr f = "age" → v = .vInt age) ∧ (lowerStr f = "dob" → v = .vDate dob) := by
  simp only [bankStep] at hs
  refine ⟨fun hl => ?_, fun hl => ?_⟩
  · rw [hl, show aliasF "age" = "age" from rfl, if_pos rfl] at hs
    injection hs with h1
    exact (congrArg Prod.fst h1).symm
  · rw [hl, show aliasF "dob" = "dob" from rfl] at hs
    rw [if_neg (by decide : ¬("dob" : String) = "age"), if_pos rfl] at hs
    injection hs with h1
    exact (congrArg Prod.fst h1).symm

theorem employeeStep_kv (today : Date) (age : Int) (dob : Date)
    (f : String) (s : List Nat) (v : Value) (s2 : List Nat)
    (hs : employeeStep today age dob f s = some (v, s2)) :
    (lowerStr f = "age" → v = .vInt age) ∧ (lowerStr f = "dob" → v = .vDate dob) := by
  simp only [employeeStep] at hs
  refine ⟨fun hl => ?_, fun hl => ?_⟩
  · rw [hl, show aliasF "age" = "age" from rfl, if_pos rfl] at hs
    injection hs with h1
    exact (congrArg Prod.fst h1).symm
  · rw [hl, show aliasF "dob" = "dob" from rfl] at hs
    rw [if_neg (by decide : ¬("dob" : String) = "age"), if_pos rfl] at hs
    injection hs with h1
    exact (congrArg Prod.fst h1).symm

theorem random_age_and_dob_range (today : Date) (lo hi : Nat) (s : List Nat)
    (a : Int) (d : Date) (s2 : List Nat) (hlohi : lo ≤ hi)
    (h : random_age_and_dob today lo hi s = some ((a, d), s2)) :
    (lo : Int) ≤ a ∧ a ≤ (hi : Int) := by
  unfold random_age_and_dob at h
  split at h
  · rename_i d0 s0 heq
    injection h with h1
    have h2 := congrArg (fun q => q.1.1) h1
    dsimp at h2
    have hmod : s.headD 0 % (hi + 1 - lo) < hi + 1 - lo := Nat.mod_lt _ (by omega)
    unfold randint at h2
    dsimp at h2
    omega
  · cases h

theorem generate_student_record_spec (today : Date) (fields : List String)
    (s : List Nat) (r : Record) (s2 : List Nat)
    (h : generate_student_record today fields s = some (r, s2)) :
    ∃ age dob s1, random_age_and_dob today 5 18 s = some ((age, dob), s1) ∧
      ∀ k v, (k, v) ∈ r →
        (lowerStr k = "age" → v = .vInt age) ∧
        (lowerStr k = "dob" → v = .vDate dob) ∧
        (lowerStr k = "grade" → v = .vInt (max 1 (min 12 (age - 5 + 1)))) := by
  unfold generate_student_record at h
  split at h
  · cases h
  · rename_i age dob s1 heq
    refine ⟨age, dob, s1, heq, fun k v hm => ?_⟩
    have hb := buildRecord_mem (studentStep today age dob (max 1 (min 12 (age - 5 + 1))))
      (fun f v => (lowerStr f = "age" → v = .vInt age) ∧
        (lowerStr f = "dob" → v = .vDate dob) ∧
        (lowerStr f = "grade" → v = .vInt (max 1 (min 12 (age - 5 + 1)))))
      (fun f sx v2 sx2 hsx => studentStep_kv _ _ _ _ _ _ _ _ hsx) _ _ _ _ _ h k v hm
    rcases hb with h1 | h1
    · cases h1
    · exact h1

theorem generate_college_student_record_spec (today : Date) (fields : List String)
    (s : List Nat) (r : Record) (s2 : List Nat)
    (h : generate_college_student_record today fields s = some (r, s2)) :
    ∃ age dob s1, random_age_and_dob today 18 25 s = some ((age, dob), s1) ∧
      ∀ k v, (k, v) ∈ r →
        (lowerStr k = "age" → v = .vInt age) ∧
        (lowerStr k = "dob" → v = .vDate dob) ∧
        (lowerStr k = "year" → v = .vInt ((randint s1 1 4).1 : Int)) := by
  unfold generate_college_student_record at h
  split at h
  · cases h
  · rename_i age dob s1 heq
    refine ⟨age, dob, s1, heq, fun k v hm => ?_⟩
    have hb := buildRecord_mem (collegeStep today age dob ((randint s1 1 4).1 : Int))
      (fun f v => (lowerStr f = "age" → v = .vInt age) ∧
        (lowerStr f = "dob" → v = .vDate dob) ∧
        (lowerStr f = "year" → v = .vInt ((randint s1 1 4).1 : Int)))
      (fun f sx v2 sx2 hsx => collegeStep_kv _ _ _ _ _ _ _ _ hsx) _ _ _ _ _ h k v hm
    rcases hb with h1 | h1
    · cases h1
    · exact h1

theorem generate_bank_customer_record_spec (today : Date) (fields : List String)
    (s : List Nat) (r : Record) (s2 : List Nat)
    (h : generate_bank_customer_record today fields s = some (r, s2)) :
    ∃ age dob s1, random_age_and_dob today 18 80 s = some ((age, dob), s1) ∧
      ∀ k v, (k, v) ∈ r →
        (lowerStr k = "age" → v = .vInt age) ∧
        (lowerStr k = "dob" → v = .vDate dob) := by
  unfold generate_bank_customer_record at h
  split at h
  · cases h
  · rename_i age dob s1 heq
    refine ⟨age, dob, s1, heq, fun k v hm => ?_⟩
    have hb := buildRecord_mem (bankStep today age dob)
      (fun f v => (lowerStr f = "age" → v = .vInt age) ∧
        (lowerStr f = "dob" → v = .vDate dob))
      (fun f sx v2 sx2 hsx => bankStep_kv _ _ _ _ _ _ _ hsx) _ _ _ _ _ h k v hm
    rcases hb with h1 | h1
    · cases h1
    · exact h1

theorem generate_employee_record_spec (today : Date) (fields : List String)
    (s : List Nat) (r : Record) (s2 : List Nat)
    (h : generate_employee_record today fields s = some (r, s2)) :
    ∃ age dob s1, random_age_and_dob today 22 65 s = some ((age, dob), s1) ∧
      ∀ k v, (k, v) ∈ r →
        (lowerStr k = "age" → v = .vInt age) ∧
        (lowerStr k = "dob" → v = .vDate dob) := by
  unfold generate_employee_record at h
  split at h
  · cases h
  · rename_i age dob s1 heq
    refine ⟨age, dob, s1, heq, fun k v hm => ?_⟩
    have hb := buildRecord_mem (employeeStep today age dob)
      (fun f v => (lowerStr f = "age" → v = .vInt age) ∧
        (lowerStr f = "dob" → v = .vDate dob))
      (fun f sx v2 sx2 hsx => employeeStep_kv _ _ _ _ _ _ _ hsx) _ _ _ _ _ h k v hm
    rcases hb with h1 | h1
    · cases h1
    · exact h1

/-- The coherence invariant of the spec, stated on a record: every
age-labelled field holds `vInt a` and every DOB-labelled field a date whose
computed age is exactly `a`. -/
def AgeDobAligned (t : Date) (r : Record) (a : Int) : Prop :=
  (∀ k v, (k, v) ∈ r → lowerStr k = "age" → v = .vInt a) ∧
  (∀ k v, (k, v) ∈ r → lowerStr k = "dob" →
    ∃ d, v = .vDate d ∧ calculate_age_from_dob t d = a)

/-- Well-formedness of a record produced by the recognized generators:
aligned on a common age within the union `[5, 80]` of all entity ranges. -/
def WF (t : Date) (r : Record) : Prop :=
  ∃ a : Int, 5 ≤ a ∧ a ≤ 80 ∧ AgeDobAligned t r a

/-- `derive_age(dob) == age` for every age-labelled / DOB-labelled pair of
fields of the record. -/
def Coherent (t : Date) (r : Record) : Prop :=
  ∀ k1 v1 k2 v2, (k1, v1) ∈ r → (k2, v2) ∈ r →
    lowerStr k1 = "age" → lowerStr k2 = "dob" →
    ∃ a d, v1 = .vInt a ∧ v2 = .vDate d ∧ calculate_age_from_dob t d = a

theorem WF_Coherent (t : Date) (r : Record) (h : WF t r) : Coherent t r := by
  obtain ⟨a, ha1, ha2, h1, h2⟩ := h
  intro k1 v1 k2 v2 hm1 hm2 hl1 hl2
  obtain ⟨d, hd, hcd⟩ := h2 k2 v2 hm2 hl2
  exact ⟨a, d, h1 k1 v1 hm1 hl1, hd, hcd⟩

theorem normalizeEntityType_cases (ty : Option String) (nt : String)
    (h : normalizeEntityType ty = some nt) :
    nt = "student" ∨ nt = "college_student" ∨ nt = "bank_customer" ∨
      nt = "employee" := by
  rcases ty with _ | t
  · cases h
  · simp only [normalizeEntityType] at h
    split at h
    · cases h
    · unfold lookupAL at h
      rcases hf : List.find? (fun kv => kv.1 == lowerStr t) ENTITY_ALIASES with _ | kv
      · rw [hf] at h; cases h
      · rw [hf] at h
        injection h with h1
        have hmem := List.mem_of_find?_eq_some hf
        unfold ENTITY_ALIASES at hmem
        simp only [List.mem_cons, List.not_mem_nil, or_false] at hmem
        rcases hmem with h2 | h2 | h2 | h2 | h2 | h2 | h2 | h2 <;> subst h2 <;>
          simp only at h1 <;> rw [← h1] <;> simp

theorem generate_entity_record_student (t : Date) (ty : Option String)
    (fields : List String) (s : List Nat)
    (h : normalizeEntityType ty = some "student") :
    generate_entity_record t ty fields s = generate_student_record t fields s := by
  unfold generate_entity_record
  rw [h]
  rfl

theorem generate_entity_record_college (t : Date) (ty : Option String)
    (fields : List String) (s : List Nat)
    (h : normalizeEntityType ty = some "college_student") :
    generate_entity_record t ty fields s =
      generate_college_student_record t fields s := by
  unfold generate_entity_record
  rw [h]
  rfl

theorem generate_entity_record_bank (t : Date) (ty : Option String)
    (fields : List String) (s : List Nat)
    (h : normalizeEntityType ty = some "bank_customer") :
    generate_entity_record t ty fields s =
      generate_bank_customer_record t fields s := by
  unfold generate_entity_record
  rw [h]
  rfl

theorem generate_entity_record_employee (t : Date) (ty : Option String)
    (fields : List String) (s : List Nat)
    (h : normalizeEntityType ty = some "employee") :
    generate_entity_record t ty fields s = generate_employee_record t fields s := by
  unfold generate_entity_record
  rw [h]
  rfl

theorem WF_of_spec (t : Date) (hv : ValidDate t) (hy100 : 100 ≤ t.year)
    (lo hi : Nat) (hlo : 5 ≤ lo) (hhi : hi ≤ 80) (hrange : lo ≤ hi)
    (s s1 : List Nat) (age : Int) (dob : Date) (r : Record)
    (heq : random_age_and_dob t lo hi s = some ((age, dob), s1))
    (hkv : ∀ k v, (k, v) ∈ r →
      (lowerStr k = "age" → v = .vInt age) ∧ (lowerStr k = "dob" → v = .vDate dob)) :
    WF t r := by
  obtain ⟨a0, d0, s0, heq0, _, hlo2, hhi2, hvd, hcd⟩ :=
    random_age_and_dob_spec t lo hi s hv hrange (by omega) (by omega)
  rw [heq0] at heq
  injection heq with h1
  have hae := congrArg (fun q => q.1.1) h1
  have hde := congrArg (fun q => q.1.2) h1
  dsimp at hae hde
  refine ⟨age, by omega, by omega, fun k v hm hl => (hkv k v hm).1 hl,
    fun k v hm hl => ⟨dob, (hkv k v hm).2 hl, ?_⟩⟩
  rw [← hde, ← hae]
  exact hcd

theorem generate_entity_WF (t : Date) (ht : GoodToday t) (ty : Option String)
    (nt : String) (hnt : normalizeEntityType ty = some nt)
    (fields : List String) (s : List Nat) (r : Record) (s2 : List Nat)
    (h : generate_entity_record t ty fields s = some (r, s2)) : WF t r := by
  obtain ⟨hv, hy⟩ := ht
  rcases normalizeEntityType_cases ty nt hnt with h4 | h4 | h4 | h4
  · subst h4
    rw [generate_entity_record_student t ty fields s hnt] at h
    obtain ⟨age, dob, s1, heq, hkv⟩ := generate_student_record_spec _ _ _ _ _ h
    exact WF_of_spec t hv hy 5 18 (by omega) (by omega) (by omega) s s1 age dob r heq
      (fun k v hm => ⟨(hkv k v hm).1, (hkv k v hm).2.1⟩)
  · subst h4
    rw [generate_entity_record_college t ty fields s hnt] at h
    obtain ⟨age, dob, s1, heq, hkv⟩ := generate_college_student_record_spec _ _ _ _ _ h
    exact WF_of_spec t hv hy 18 25 (by omega) (by omega) (by omega) s s1 age dob r heq
      (fun k v hm => ⟨(hkv k v hm).1, (hkv k v hm).2.1⟩)
  · subst h4
    rw [generate_entity_record_bank t ty fields s hnt] at h
    obtain ⟨age, dob, s1, heq, hkv⟩ := generate_bank_customer_record_spec _ _ _ _ _ h
    exact WF_of_spec t hv hy 18 80 (by omega) (by omega) (by omega) s s1 age dob r heq hkv
  · subst h4
    rw [generate_entity_record_employee t ty fields s hnt] at h
    obtain ⟨age, dob, s1, heq, hkv⟩ := generate_employee_record_spec _ _ _ _ _ h
    exact WF_of_spec t hv hy 22 65 (by omega) (by omega) (by omega) s s1 age dob r heq hkv

theorem aligned_subset (t : Date) (a : Int) (r r2 : Record)
    (hsub : ∀ kv, kv ∈ r2 → kv ∈ r) (hA : AgeDobAligned t r a) :
    AgeDobAligned t r2 a :=
  ⟨fun k v hm hl => hA.1 k v (hsub (k, v) hm) hl,
   fun k v hm hl => hA.2 k v (hsub (k, v) hm) hl⟩

theorem removal_pass_subset (remF : List String) :
    ∀ (r : Record) kv, kv ∈ removal_pass remF r → kv ∈ r := by
  induction remF with
  | nil => intro r kv h; exact h
  | cons f fs ih =>
    intro r kv h
    unfold removal_pass at h ih
    rw [List.foldl_cons] at h
    have h2 := ih _ kv h
    rcases kv with ⟨k2, v2⟩
    revert h2
    split
    · exact fun h2 => recPop_mem _ _ _ _ h2
    · exact fun h2 => h2

theorem recSet_aligned (t : Date) (r : Record) (a : Int) (k : String) (v : Value)
    (hA : AgeDobAligned t r a)
    (h1 : lowerStr k = "age" → v = .vInt a)
    (h2 : lowerStr k = "dob" → ∃ d, v = .vDate d ∧ calculate_age_from_dob t d = a) :
    AgeDobAligned t (recSet r k v) a := by
  constructor <;> intro k2 v2 hm hl <;> rcases recSet_mem _ _ _ _ _ hm with hm2 | hm2
  · exact hA.1 k2 v2 hm2 hl
  · rw [hm2.2]
    exact h1 (hm2.1 ▸ hl)
  · exact hA.2 k2 v2 hm2 hl
  · rw [hm2.2]
    exact h2 (hm2.1 ▸ hl)

theorem aligned_rebase (t : Date) (r : Record) (a2 : Int)
    (hage : find_field_key r "Age" = none) (hdob : find_field_key r "Dob" = none) :
    AgeDobAligned t r a2 := by
  constructor <;> intro k v hm hl
  · exact absurd (hl.trans (by decide : ("age" : String) = lowerStr "Age").symm ▸ hl)
      (find_field_key_none r "Age" hage k v hm)
  · exact absurd (hl.trans (by decide : ("dob" : String) = lowerStr "Dob").symm ▸ hl)
      (find_field_key_none r "Dob" hdob k v hm)

theorem existing_age_aligned (t : Date) (r1 : Record) (a : Int)
    (hA : AgeDobAligned t r1 a) :
    (existing_age r1 = none ∧ find_field_key r1 "Age" = none) ∨
      existing_age r1 = some a := by
  unfold existing_age
  rcases hk : find_field_key r1 "Age" with _ | k
  · exact Or.inl ⟨rfl, rfl⟩
  · right
    obtain ⟨v, hv⟩ := find_field_key_mem _ _ _ hk
    obtain ⟨v2, hv2, hm2⟩ := recGet_of_mem _ _ _ hv
    have hl := find_field_key_lower _ _ _ hk
    have hva := hA.1 k v2 hm2 (hl.trans (by decide))
    show lookupInt r1 k = some a
    unfold lookupInt
    rw [hv2, hva]
    rfl

theorem existing_dob_aligned (t : Date) (r1 : Record) (a : Int)
    (hA : AgeDobAligned t r1 a) :
    (existing_dob r1 = none ∧ find_field_key r1 "Dob" = none) ∨
      ∃ d, existing_dob r1 = some d ∧ calculate_age_from_dob t d = a := by
  unfold existing_dob
  rcases hk : find_field_key r1 "Dob" with _ | k
  · exact Or.inl ⟨rfl, rfl⟩
  · right
    obtain ⟨v, hv⟩ := find_field_key_mem _ _ _ hk
    obtain ⟨v2, hv2, hm2⟩ := recGet_of_mem _ _ _ hv
    have hl := find_field_key_lower _ _ _ hk
    obtain ⟨d, hd, hcd⟩ := hA.2 k v2 hm2 (hl.trans (by decide))
    refine ⟨d, ?_, hcd⟩
    show lookupDob r1 k = some d
    unfold lookupDob
    rw [hv2, hd]
    rfl

theorem genBD_eq_exact (t : Date) (hv : ValidDate t) (hy : 100 ≤ t.year)
    (a : Int) (ha5 : 0 ≤ a) (ha80 : a ≤ 80) (s : List Nat) (d : Date) (s2 : List Nat)
    (heq : generate_birthdate_for_age t a s = some (d, s2)) :
    calculate_age_from_dob t d = a := by
  have ha : ((a.toNat : Nat) : Int) = a := by omega
  obtain ⟨d0, s0, heq0, hvd0, hex⟩ := generate_birthdate_spec t a.toNat s hv (by omega)
  rw [ha] at heq0
  rw [heq0] at heq
  injection heq with h1
  have hd := congrArg Prod.fst h1
  dsimp at hd
  rw [← hd]
  have hc := hex (by omega)
  rw [ha] at hc
  exact hc

theorem rad_eq_exact (t : Date) (hv : ValidDate t) (hy : 100 ≤ t.year)
    (lo hi : Nat) (hlo : lo ≤ hi) (hhi : hi ≤ 80)
    (s : List Nat) (a : Int) (d : Date) (s2 : List Nat)
    (heq : random_age_and_dob t lo hi s = some ((a, d), s2)) :
    (lo : Int) ≤ a ∧ a ≤ (hi : Int) ∧ calculate_age_from_dob t d = a := by
  obtain ⟨a0, d0, s0, heq0, _, h1, h2, hvd, hcd⟩ :=
    random_age_and_dob_spec t lo hi s hv hlo (by omega) (by omega)
  rw [heq0] at heq
  injection heq with h3
  have hae := congrArg (fun q => q.1.1) h3
  have hde := congrArg (fun q => q.1.2) h3
  dsimp at hae hde
  rw [← hae, ← hde]
  exact ⟨h1, h2, hcd⟩

theorem existing_age_some (t : Date) (r1 : Record) (a ag : Int)
    (hA : AgeDobAligned t r1 a) (hea : existing_age r1 = some ag) : ag = a := by
  rcases existing_age_aligned t r1 a hA with ⟨hn, _⟩ | hs
  · rw [hn] at hea; cases hea
  · rw [hs] at hea; injection hea with h1; exact h1.symm

theorem existing_age_none_key (t : Date) (r1 : Record) (a : Int)
    (hA : AgeDobAligned t r1 a) (hea : existing_age r1 = none) :
    find_field_key r1 "Age" = none := by
  rcases existing_age_aligned t r1 a hA with ⟨_, hf⟩ | hs
  · exact hf
  · rw [hs] at hea; cases hea

theorem existing_dob_some (t : Date) (r1 : Record) (a : Int) (d : Date)
    (hA : AgeDobAligned t r1 a) (hed : existing_dob r1 = some d) :
    calculate_age_from_dob t d = a := by
  rcases existing_dob_aligned t r1 a hA with ⟨hn, _⟩ | ⟨d2, hd2, hcd⟩
  · rw [hn] at hed; cases hed
  · rw [hd2] at hed; injection hed with h1; rw [← h1]; exact hcd

theorem existing_dob_none_key (t : Date) (r1 : Record) (a : Int)
    (hA : AgeDobAligned t r1 a) (hed : existing_dob r1 = none) :
    find_field_key r1 "Dob" = none := by
  rcases existing_dob_aligned t r1 a hA with ⟨_, hf⟩ | ⟨d2, hd2, _⟩
  · exact hf
  · rw [hd2] at hed; cases hed

theorem desired_age_pre_aligned (t : Date) (r1 : Record) (a : Int) (ageReq : Bool)
    (hA : AgeDobAligned t r1 a) :
    (∀ x, desired_age_pre t ageReq r1 = some x → x = a) ∧
    (desired_age_pre t ageReq r1 = none → ageReq = true →
      find_field_key r1 "Age" = none ∧ find_field_key r1 "Dob" = none) ∧
    (ageReq = false → desired_age_pre t ageReq r1 = none) := by
  cases ageReq
  · have he : desired_age_pre t false r1 = none := by
      unfold desired_age_pre
      rw [if_neg Bool.false_ne_true]
    refine ⟨fun x hx => ?_, fun _ hc => Bool.noConfusion hc, fun _ => he⟩
    rw [he] at hx; cases hx
  · have he : desired_age_pre t true r1 =
        match existing_dob r1 with
        | some d => some (calculate_age_from_dob t d)
        | none => existing_age r1 := by
      unfold desired_age_pre
      rw [if_pos rfl]
    rcases hed : existing_dob r1 with _ | d
    · rw [hed] at he
      dsimp only at he
      rcases existing_age_aligned t r1 a hA with ⟨hn, hfa⟩ | hs
      · rw [hn] at he
        refine ⟨fun x hx => ?_,
          fun _ _ => ⟨hfa, existing_dob_none_key t r1 a hA hed⟩,
          fun hc => Bool.noConfusion hc⟩
        rw [he] at hx; cases hx
      · rw [hs] at he
        refine ⟨fun x hx => ?_, fun hn2 _ => ?_, fun hc => Bool.noConfusion hc⟩
        · rw [he] at hx; injection hx with h1; exact h1.symm
        · rw [he] at hn2; cases hn2
    · rw [hed] at he
      dsimp only at he
      have hcd := existing_dob_some t r1 a d hA hed
      refine ⟨fun x hx => ?_, fun hn2 _ => ?_, fun hc => Bool.noConfusion hc⟩
      · rw [he] at hx; injection hx with h1; rw [← h1]; exact hcd
      · rw [he] at hn2; cases hn2

theorem dob_side_aligned (t : Date) (r1 : Record) (a : Int) (dobReq : Bool)
    (s : List Nat) (dB0 : Option Date) (s0 : List Nat)
    (hv : ValidDate t) (hy : 100 ≤ t.year) (ha5 : 5 ≤ a) (ha80 : a ≤ 80)
    (hA : AgeDobAligned t r1 a)
    (h : dob_side t dobReq r1 s = some (dB0, s0)) :
    (∀ d, dB0 = some d → calculate_age_from_dob t d = a) ∧
    (dobReq = false → dB0 = none) ∧
    (dobReq = true → dB0 = none → find_field_key r1 "Dob" = none) := by
  cases dobReq
  · unfold dob_side at h
    rw [if_neg Bool.false_ne_true] at h
    simp only [Option.some.injEq, Prod.mk.injEq] at h
    exact ⟨fun d hd => Option.noConfusion (h.1.trans hd), fun _ => h.1.symm, fun hc => Bool.noConfusion hc⟩
  · unfold dob_side at h
    rw [if_pos rfl] at h
    rcases hea : existing_age r1 with _ | ag <;> rw [hea] at h <;> dsimp only at h
    · simp only [Option.some.injEq, Prod.mk.injEq] at h
      refine ⟨fun d hd => ?_, fun hc => Bool.noConfusion hc, fun _ hn0 => ?_⟩
      · rw [← h.1] at hd
        exact existing_dob_some t r1 a d hA hd
      · rw [← h.1] at hn0
        exact existing_dob_none_key t r1 a hA hn0
    · have hag : ag = a := existing_age_some t r1 a ag hA hea
      rcases hg : generate_birthdate_for_age t ag s with _ | ⟨d2, s2⟩ <;>
        rw [hg] at h <;> dsimp only at h
      · cases h
      · simp only [Option.some.injEq, Prod.mk.injEq] at h
        have hcd : calculate_age_from_dob t d2 = a := by
          have h9 := genBD_eq_exact t hv hy ag (by omega) (by omega) s d2 s2 hg
          rw [← hag]
          exact h9
        refine ⟨fun d hd => ?_, fun hc => Bool.noConfusion hc, fun _ hn0 => ?_⟩
        · rw [← h.1] at hd
          injection hd with hdd
          rw [← hdd]
          exact hcd
        · rw [← h.1] at hn0
          cases hn0

theorem coherence_branch_aligned (t : Date) (aLo aHi : Nat) (ageReq dobReq : Bool)
    (r1 : Record) (dAge : Option Int) (dDob : Option Date) (s0 : List Nat)
    (dA : Option Int) (dB : Option Date) (r2 : Record) (s3 : List Nat) (a : Int)
    (hv : ValidDate t) (hy : 100 ≤ t.year)
    (hlo : 5 ≤ aLo) (hlohi : aLo ≤ aHi) (hhi : aHi ≤ 80)
    (ha5 : 5 ≤ a) (ha80 : a ≤ 80)
    (hA : AgeDobAligned t r1 a)
    (hDA : ∀ x, dAge = some x → x = a)
    (hDAn : dAge = none → ageReq = true →
      find_field_key r1 "Age" = none ∧ find_field_key r1 "Dob" = none)
    (hDAf : ageReq = false → dAge = none)
    (hDB : ∀ d, dDob = some d → calculate_age_from_dob t d = a)
    (hDBf : dobReq = false → dDob = none)
    (hDBn : dobReq = true → dDob = none → find_field_key r1 "Dob" = none)
    (h : coherence_branch t aLo aHi ageReq dobReq (find_field_key r1 "Dob") r1
        dAge dDob s0 = some (dA, dB, r2, s3)) :
    ∃ a2 : Int, 5 ≤ a2 ∧ a2 ≤ 80 ∧ AgeDobAligned t r2 a2 ∧
      (∀ x, dA = some x → x = a2) ∧
      (∀ d, dB = some d → calculate_age_from_dob t d = a2) ∧
      (ageReq = true → dA ≠ none) ∧ (dobReq = true → dB ≠ none) := by
  unfold coherence_branch at h
  cases ageReq <;> cases dobReq
  · rw [if_neg (by simp), if_neg (by simp), if_neg (by simp)] at h
    simp only [Option.some.injEq, Prod.mk.injEq] at h
    obtain ⟨h1, h2, h3, h4⟩ := h
    exact ⟨a, ha5, ha80, h3 ▸ hA, fun x hx => hDA x (h1.trans hx),
      fun d hd => hDB d (h2.trans hd), fun hc => Bool.noConfusion hc, fun hc => Bool.noConfusion hc⟩
  · rw [if_neg (by simp), if_neg (by simp)] at h
    rcases dDob with _ | d
    · rw [if_pos ⟨rfl, rfl⟩] at h
      rcases hea : existing_age r1 with _ | ag <;> rw [hea] at h <;> dsimp only at h
      · rcases hr : random_age_and_dob t aLo aHi s0 with _ | ⟨⟨na, nd⟩, s2⟩ <;>
          rw [hr] at h <;> dsimp only at h
        · cases h
        · simp only [Option.some.injEq, Prod.mk.injEq] at h
          obtain ⟨h1, h2, h3, h4⟩ := h
          obtain ⟨hna1, hna2, hcd⟩ := rad_eq_exact t hv hy aLo aHi hlohi hhi s0 na nd s2 hr
          have hfa := existing_age_none_key t r1 a hA hea
          have hfd := hDBn rfl rfl
          refine ⟨na, by omega, by omega, h3 ▸ aligned_rebase t r1 na hfa hfd,
            fun x hx => ?_, fun d hd => ?_, fun hc => Bool.noConfusion hc, fun _ => ?_⟩
          · rw [← h1, hDAf rfl] at hx; cases hx
          · rw [← h2] at hd; injection hd with hdd; rw [← hdd]; exact hcd
          · rw [← h2]; exact fun hc => Option.noConfusion hc
      · have hag : ag = a := existing_age_some t r1 a ag hA hea
        rcases hg : generate_birthdate_for_age t ag s0 with _ | ⟨nd, s2⟩ <;>
          rw [hg] at h <;> dsimp only at h
        · cases h
        · simp only [Option.some.injEq, Prod.mk.injEq] at h
          obtain ⟨h1, h2, h3, h4⟩ := h
          have hcd : calculate_age_from_dob t nd = a := by
            have h9 := genBD_eq_exact t hv hy ag (by omega) (by omega) s0 nd s2 hg
            rw [← hag]
            exact h9
          refine ⟨a, ha5, ha80, h3 ▸ hA, fun x hx => hDA x (h1.trans hx),
            fun d hd => ?_, fun hc => Bool.noConfusion hc, fun _ => ?_⟩
          · rw [← h2] at hd; injection hd with hdd; rw [← hdd]; exact hcd
          · rw [← h2]; exact fun hc => Option.noConfusion hc
    · rw [if_neg (by simp)] at h
      simp only [Option.some.injEq, Prod.mk.injEq] at h
      obtain ⟨h1, h2, h3, h4⟩ := h
      refine ⟨a, ha5, ha80, h3 ▸ hA, fun x hx => hDA x (h1.trans hx),
        fun d2 hd2 => ?_, fun hc => Bool.noConfusion hc, fun _ => ?_⟩
      · rw [← h2] at hd2; injection hd2 with hdd; rw [← hdd]; exact hDB d rfl
      · rw [← h2]; exact fun hc => Option.noConfusion hc
  · rw [if_neg (by simp)] at h
    rcases dAge with _ | ag
    · rw [if_pos ⟨rfl, rfl⟩] at h
      rcases hr : random_age_and_dob t aLo aHi s0 with _ | ⟨⟨na, nd⟩, s2⟩ <;>
        rw [hr] at h <;> dsimp only at h
      · cases h
      · obtain ⟨hfa, hfd⟩ := hDAn rfl rfl
        rw [hfd] at h
        dsimp only at h
        simp only [Option.some.injEq, Prod.mk.injEq] at h
        obtain ⟨h1, h2, h3, h4⟩ := h
        obtain ⟨hna1, hna2, hcd⟩ := rad_eq_exact t hv hy aLo aHi hlohi hhi s0 na nd s2 hr
        have hdn : dDob = none := hDBf rfl
        refine ⟨na, by omega, by omega, h3 ▸ aligned_rebase t r1 na hfa hfd,
          fun x hx => ?_, fun d hd => ?_, fun _ => ?_, fun hc => Bool.noConfusion hc⟩
        · rw [← h1] at hx; injection hx with hxx; exact hxx.symm
        · rw [← h2, hdn] at hd; cases hd
        · rw [← h1]; exact fun hc => Option.noConfusion hc
    · rw [if_neg (by simp), if_neg (by simp)] at h
      simp only [Option.some.injEq, Prod.mk.injEq] at h
      obtain ⟨h1, h2, h3, h4⟩ := h
      have hag : ag = a := hDA ag rfl
      refine ⟨a, ha5, ha80, h3 ▸ hA, fun x hx => ?_,
        fun d hd => hDB d (h2.trans hd), fun _ => ?_, fun hc => Bool.noConfusion hc⟩
      · rw [← h1] at hx; injection hx with hxx; rw [← hxx]; exact hag
      · rw [← h1]; exact fun hc => Option.noConfusion hc
  · rw [if_pos ⟨rfl, rfl⟩] at h
    rcases dAge with _ | ag <;> rcases dDob with _ | d <;> dsimp only at h
    · rcases hr : random_age_and_dob t aLo aHi s0 with _ | ⟨⟨na, nd⟩, s2⟩ <;>
        rw [hr] at h <;> dsimp only at h
      · cases h
      · simp only [Option.some.injEq, Prod.mk.injEq] at h
        obtain ⟨h1, h2, h3, h4⟩ := h
        obtain ⟨hna1, hna2, hcd⟩ := rad_eq_exact t hv hy aLo aHi hlohi hhi s0 na nd s2 hr
        obtain ⟨hfa, hfd⟩ := hDAn rfl rfl
        refine ⟨na, by omega, by omega, h3 ▸ aligned_rebase t r1 na hfa hfd,
          fun x hx => ?_, fun d hd => ?_, fun _ => ?_, fun _ => ?_⟩
        · rw [← h1] at hx; injection hx with hxx; exact hxx.symm
        · rw [← h2] at hd; injection hd with hdd; rw [← hdd]; exact hcd
        · rw [← h1]; exact fun hc => Option.noConfusion hc
        · rw [← h2]; exact fun hc => Option.noConfusion hc
    · simp only [Option.some.injEq, Prod.mk.injEq] at h
      obtain ⟨h1, h2, h3, h4⟩ := h
      have hcd : calculate_age_from_dob t d = a := hDB d rfl
      refine ⟨a, ha5, ha80, h3 ▸ hA, fun x hx => ?_, fun d2 hd2 => ?_,
        fun _ => ?_, fun _ => ?_⟩
      · rw [← h1] at hx; injection hx with hxx; rw [← hxx]; exact hcd
      · rw [← h2] at hd2; injection hd2 with hdd; rw [← hdd]; exact hcd
      · rw [← h1]; exact fun hc => Option.noConfusion hc
      · rw [← h2]; exact fun hc => Option.noConfusion hc
    · have hag : ag = a := hDA ag rfl
      rcases hg : generate_birthdate_for_age t ag s0 with _ | ⟨nd, s2⟩ <;>
        rw [hg] at h <;> dsimp only at h
      · cases h
      · simp only [Option.some.injEq, Prod.mk.injEq] at h
        obtain ⟨h1, h2, h3, h4⟩ := h
        have hcd : calculate_age_from_dob t nd = a := by
          have h9 := genBD_eq_exact t hv hy ag (by omega) (by omega) s0 nd s2 hg
          rw [← hag]
          exact h9
        refine ⟨a, ha5, ha80, h3 ▸ hA, fun x hx => ?_, fun d hd => ?_,
          fun _ => ?_, fun _ => ?_⟩
        · rw [← h1] at hx; injection hx with hxx; rw [← hxx]; exact hag
        · rw [← h2] at hd; injection hd with hdd; rw [← hdd]; exact hcd
        · rw [← h1]; exact fun hc => Option.noConfusion hc
        · rw [← h2]; exact fun hc => Option.noConfusion hc
    · simp only [Option.some.injEq, Prod.mk.injEq] at h
      obtain ⟨h1, h2, h3, h4⟩ := h
      refine ⟨a, ha5, ha80, h3 ▸ hA, fun x hx => ?_, fun d2 hd2 => ?_,
        fun _ => ?_, fun _ => ?_⟩
      · rw [← h1] at hx; injection hx with hxx; rw [← hxx]; exact hDA ag rfl
      · rw [← h2] at hd2; injection hd2 with hdd; rw [← hdd]; exact hDB d rfl
      · rw [← h1]; exact fun hc => Option.noConfusion hc
      · rw [← h2]; exact fun hc => Option.noConfusion hc

theorem contains_cons_self (x : String) (l : List String) :
    (x :: l).contains x = true := by
  simp [List.contains_cons]

theorem contains_cons_tail (x y : String) (l : List String)
    (h : l.contains x = true) : (y :: l).contains x = true := by
  have h2 : x ∈ l := by simpa using h
  simp [List.contains_cons, h2]

theorem update_fields_loop_aligned (t : Date) (aLo aHi : Nat) (nty : Option String)
    (dobReq : Bool) (dobKey : Option String) (a2 : Int) :
    ∀ (ps : List (String × String)) (r : Record) (dA : Option Int)
      (dB : Option Date) (s : List Nat) (r2 : Record) (s2 : List Nat),
      AgeDobAligned t r a2 →
      (∀ x, dA = some x → x = a2) →
      (∀ d, dB = some d → calculate_age_from_dob t d = a2) →
      (∀ p ∈ ps, p.2 = aliasF (lowerStr p.1)) →
      ((ps.map Prod.snd).contains "age" = true → dA ≠ none) →
      ((ps.map Prod.snd).contains "dob" = true → dB ≠ none) →
      update_fields_loop t aLo aHi nty dobReq dobKey ps r dA dB s = some (r2, s2) →
      AgeDobAligned t r2 a2 := by
  intro ps
  induction ps with
  | nil =>
    intro r dA dB s r2 s2 hA _ _ _ _ _ h
    simp only [update_fields_loop] at h
    simp only [Option.some.injEq, Prod.mk.injEq] at h
    exact h.1 ▸ hA
  | cons p rest ih =>
    intro r dA dB s r2 s2 hA hdA hdB hps hage hdob h
    rcases p with ⟨f, nf⟩
    have hpair : nf = aliasF (lowerStr f) := hps (f, nf) (List.mem_cons_self _ _)
    simp only [update_fields_loop] at h
    by_cases hnf : nf = "age"
    · rw [if_pos hnf] at h
      have hAne : dA ≠ none := hage (by rw [List.map_cons, hnf]; exact contains_cons_self _ _)
      rcases dA with _ | ag
      · exact absurd rfl hAne
      · dsimp only at h
        have hag : ag = a2 := hdA ag rfl
        refine ih (recSet r f (.vInt ag)) (some ag) dB _ r2 s2 ?_ ?_ hdB
          (fun p hp => hps p (List.mem_cons_of_mem _ hp)) ?_ ?_ h
        · refine recSet_aligned t r a2 f (.vInt ag) hA (fun _ => by rw [hag]) ?_
          intro hl
          have h9 : nf = "dob" := by rw [hpair, hl]; decide
          exact absurd (hnf.symm.trans h9) (by decide)
        · exact fun x hx => by injection hx with hxx; rw [← hxx]; exact hag
        · exact fun _ hc => Option.noConfusion hc
        · exact fun hc => hdob (by rw [List.map_cons]; exact contains_cons_tail _ _ _ hc)
    · rw [if_neg hnf] at h
      by_cases hnf2 : nf = "dob"
      · rw [if_pos hnf2] at h
        have hBne : dB ≠ none :=
          hdob (by rw [List.map_cons, hnf2]; exact contains_cons_self _ _)
        rcases dB with _ | d
        · exact absurd rfl hBne
        · dsimp only at h
          have hcd : calculate_age_from_dob t d = a2 := hdB d rfl
          refine ih (recSet r f (.vDate d)) dA (some d) _ r2 s2 ?_ hdA ?_
            (fun p hp => hps p (List.mem_cons_of_mem _ hp)) ?_ ?_ h
          · refine recSet_aligned t r a2 f (.vDate d) hA ?_ (fun _ => ⟨d, rfl, hcd⟩)
            intro hl
            have h9 : nf = "age" := by rw [hpair, hl]; decide
            exact absurd h9 hnf
          · exact fun d2 hd2 => by injection hd2 with hdd; rw [← hdd]; exact hcd
          · exact fun hc => hage (by rw [List.map_cons]; exact contains_cons_tail _ _ _ hc)
          · exact fun _ hc => Option.noConfusion hc
      · rw [if_neg hnf2] at h
        rcases hg : generate_entity_record t nty [f] s with _ | ⟨rg, sg⟩ <;>
          rw [hg] at h <;> dsimp only at h
        · cases h
        · rcases hgr : recGet rg f with _ | v <;> rw [hgr] at h <;> dsimp only at h
          · cases h
          · refine ih (recSet r f v) dA dB _ r2 s2 ?_ hdA hdB
              (fun p hp => hps p (List.mem_cons_of_mem _ hp)) ?_ ?_ h
            · refine recSet_aligned t r a2 f v hA ?_ ?_
              · intro hl
                have h9 : nf = "age" := by rw [hpair, hl]; decide
                exact absurd h9 hnf
              · intro hl
                have h9 : nf = "dob" := by rw [hpair, hl]; decide
                exact absurd h9 hnf2
            · exact fun hc => hage (by rw [List.map_cons]; exact contains_cons_tail _ _ _ hc)
            · exact fun hc => hdob (by rw [List.map_cons]; exact contains_cons_tail _ _ _ hc)

theorem update_record_WF (t : Date) (aLo aHi : Nat) (nty : Option String)
    (addPairs : List (String × String)) (remF : List String) (r : Record)
    (s : List Nat) (r2 : Record) (s2 : List Nat)
    (hv : ValidDate t) (hy : 100 ≤ t.year)
    (hlo : 5 ≤ aLo) (hlohi : aLo ≤ aHi) (hhi : aHi ≤ 80)
    (hps : ∀ p ∈ addPairs, p.2 = aliasF (lowerStr p.1))
    (hWF : WF t r)
    (h : update_record t aLo aHi nty addPairs remF r s = some (r2, s2)) :
    WF t r2 := by
  obtain ⟨a, ha5, ha80, hA0⟩ := hWF
  have hA1 : AgeDobAligned t (removal_pass remF r) a :=
    aligned_subset t a r (removal_pass remF r) (removal_pass_subset remF r) hA0
  unfold update_record at h
  dsimp only at h
  obtain ⟨hDA, hDAn, hDAf⟩ := desired_age_pre_aligned t (removal_pass remF r) a
    ((addPairs.map Prod.snd).contains "age") hA1
  rcases hds : dob_side t ((addPairs.map Prod.snd).contains "dob")
      (removal_pass remF r) s with _ | ⟨dB0, s0⟩ <;> rw [hds] at h <;> dsimp only at h
  · cases h
  · obtain ⟨hDB, hDBf, hDBn⟩ := dob_side_aligned t (removal_pass remF r) a
      ((addPairs.map Prod.snd).contains "dob") s dB0 s0 hv hy ha5 ha80 hA1 hds
    rcases hcb : coherence_branch t aLo aHi ((addPairs.map Prod.snd).contains "age")
        ((addPairs.map Prod.snd).contains "dob")
        (find_field_key (removal_pass remF r) "Dob") (removal_pass remF r)
        (desired_age_pre t ((addPairs.map Prod.snd).contains "age")
          (removal_pass remF r)) dB0 s0
      with _ | ⟨dA, dB, r3, s3⟩ <;> rw [hcb] at h <;> dsimp only at h
    · cases h
    · obtain ⟨a2, h5, h80, hA2, hdA2, hdB2, hAne, hBne⟩ :=
        coherence_branch_aligned t aLo aHi ((addPairs.map Prod.snd).contains "age")
          ((addPairs.map Prod.snd).contains "dob") (removal_pass remF r)
          (desired_age_pre t ((addPairs.map Prod.snd).contains "age")
            (removal_pass remF r)) dB0 s0 dA dB r3 s3 a
          hv hy hlo hlohi hhi ha5 ha80 hA1 hDA hDAn hDAf hDB hDBf hDBn hcb
      exact ⟨a2, h5, h80,
        update_fields_loop_aligned t aLo aHi nty ((addPairs.map Prod.snd).contains "dob")
          (find_field_key (removal_pass remF r) "Dob") a2 addPairs r3 dA dB s3 r2 s2
          hA2 hdA2 hdB2 hps hAne hBne h⟩

theorem updateBatch_WF (t : Date) (aLo aHi : Nat) (nty : Option String)
    (addPairs : List (String × String)) (remF : List String)
    (hv : ValidDate t) (hy : 100 ≤ t.year)
    (hlo : 5 ≤ aLo) (hlohi : aLo ≤ aHi) (hhi : aHi ≤ 80)
    (hps : ∀ p ∈ addPairs, p.2 = aliasF (lowerStr p.1)) :
    ∀ (batch : List Record) (s : List Nat) (batch2 : List Record) (s2 : List Nat),
      (∀ r ∈ batch, WF t r) →
      updateBatch t aLo aHi nty addPairs remF batch s = some (batch2, s2) →
      ∀ r ∈ batch2, WF t r := by
  intro batch
  induction batch with
  | nil =>
    intro s batch2 s2 _ h
    unfold updateBatch at h
    simp only [Option.some.injEq, Prod.mk.injEq] at h
    rw [← h.1]
    intro r hr
    cases hr
  | cons r0 rest ih =>
    intro s batch2 s2 hWF h
    unfold updateBatch at h
    rcases hu : update_record t aLo aHi nty addPairs remF r0 s with _ | ⟨r0x, sx⟩ <;>
      rw [hu] at h <;> dsimp only at h
    · cases h
    · rcases hb : updateBatch t aLo aHi nty addPairs remF rest sx with _ | ⟨rest2, sy⟩ <;>
        rw [hb] at h <;> dsimp only at h
      · cases h
      · simp only [Option.some.injEq, Prod.mk.injEq] at h
        obtain ⟨h1, h2⟩ := h
        rw [← h1]
        intro r hr
        rcases List.mem_cons.mp hr with hr1 | hr1
        · rw [hr1]
          exact update_record_WF t aLo aHi nty addPairs remF r0 s r0x sx hv hy hlo hlohi
            hhi hps (hWF r0 (List.mem_cons_self _ _)) hu
        · exact ih sx rest2 sy (fun r3 hr3 => hWF r3 (List.mem_cons_of_mem _ hr3)) hb r hr1

theorem zip_map_snd {α β : Type} (g : α → β) :
    ∀ (l : List α) (p : α × β), p ∈ l.zip (l.map g) → p.2 = g p.1 := by
  intro l
  induction l with
  | nil =>
    intro p h
    cases h
  | cons x xs ih =>
    intro p h
    rw [List.map_cons, List.zip_cons_cons] at h
    rcases List.mem_cons.mp h with h1 | h1
    · rw [h1]
    · exact ih p h1

theorem AGE_RANGES_bounds (nt : Option String) :
    5 ≤ (AGE_RANGES nt).1 ∧ (AGE_RANGES nt).1 ≤ (AGE_RANGES nt).2 ∧
      (AGE_RANGES nt).2 ≤ 80 := by
  unfold AGE_RANGES
  split_ifs <;> exact ⟨by decide, by decide, by decide⟩

theorem update_last_generated_WF (t : Date) (hv : ValidDate t) (hy : 100 ≤ t.year)
    (sess : Session) (addRaw remRaw : List String) (s : List Nat)
    (sess2 : Session) (w : Bool) (s2 : List Nat)
    (hWF : ∀ batch r, sess.lastGenerated = some batch → r ∈ batch → WF t r)
    (h : update_last_generated t sess addRaw remRaw s = some (sess2, w, s2)) :
    ∀ batch2 r, sess2.lastGenerated = some batch2 → r ∈ batch2 → WF t r := by
  unfold update_last_generated at h
  rcases hlg : sess.lastGenerated with _ | batch
  · rw [hlg] at h
    dsimp only at h
    simp only [Option.some.injEq, Prod.mk.injEq] at h
    intro batch2 r hb2
    rw [← h.1, hlg] at hb2
    cases hb2
  · rw [hlg] at h
    rcases batch with _ | ⟨r0, rest⟩
    · dsimp only at h
      simp only [Option.some.injEq, Prod.mk.injEq] at h
      intro batch2 r hb2 hr
      rw [← h.1, hlg] at hb2
      injection hb2 with hb3
      rw [← hb3] at hr
      cases hr
    · dsimp only at h
      split at h
      · rename_i batch2x s2x heq
        simp only [Option.some.injEq, Prod.mk.injEq] at h
        obtain ⟨h1, h2, h3⟩ := h
        intro batch3 r hb3 hr
        rw [← h1] at hb3
        dsimp only at hb3
        injection hb3 with hb4
        rw [← hb4] at hr
        refine updateBatch_WF t _ _ _ _ _ hv hy (AGE_RANGES_bounds _).1
          (AGE_RANGES_bounds _).2.1 (AGE_RANGES_bounds _).2.2 ?_ (r0 :: rest) s
          batch2x s2x (fun r3 hr3 => hWF (r0 :: rest) r3 hlg hr3) heq r hr
        intro p hp
        exact zip_map_snd (fun f => aliasF (lowerStr f)) _ p hp
      · cases h

theorem removal_pass_frame (k : String) :
    ∀ (remF : List String) (r : Record),
      (∀ f ∈ remF, lowerStr k ≠ lowerStr f) →
      recGet (removal_pass remF r) k = recGet r k := by
  intro remF
  induction remF with
  | nil =>
    intro r _
    rfl
  | cons f fs ih =>
    intro r hrem
    unfold removal_pass
    rw [List.foldl_cons]
    have hstep : recGet (match find_field_key r f with
        | some k2 => recPop r k2
        | none => r) k = recGet r k := by
      rcases hk : find_field_key r f with _ | k2
      · rfl
      · have hl := find_field_key_lower r f k2 hk
        have hne : k2 ≠ k := fun hc => hrem f (List.mem_cons_self _ _) (hc ▸ hl)
        exact recGet_recPop_ne r k2 k hne
    have h2 := ih (match find_field_key r f with
        | some k2 => recPop r k2
        | none => r) (fun f2 hf2 => hrem f2 (List.mem_cons_of_mem _ hf2))
    exact h2.trans hstep

theorem coherence_branch_frame (t : Date) (aLo aHi : Nat) (ageReq dobReq : Bool)
    (r1 : Record) (dAge : Option Int) (dDob : Option Date) (s0 : List Nat)
    (dA : Option Int) (dB : Option Date) (r3 : Record) (s3 : List Nat) (k : String)
    (hdob : lowerStr k ≠ "dob")
    (h : coherence_branch t aLo aHi ageReq dobReq (find_field_key r1 "Dob") r1
        dAge dDob s0 = some (dA, dB, r3, s3)) :
    recGet r3 k = recGet r1 k := by
  unfold coherence_branch at h
  cases ageReq <;> cases dobReq
  · rw [if_neg (by simp), if_neg (by simp), if_neg (by simp)] at h
    simp only [Option.some.injEq, Prod.mk.injEq] at h
    rw [← h.2.2.1]
  · rw [if_neg (by simp), if_neg (by simp)] at h
    rcases dDob with _ | d
    · rw [if_pos ⟨rfl, rfl⟩] at h
      rcases hea : existing_age r1 with _ | ag <;> rw [hea] at h <;> dsimp only at h
      · rcases hr : random_age_and_dob t aLo aHi s0 with _ | ⟨⟨na, nd⟩, s2⟩ <;>
          rw [hr] at h <;> dsimp only at h
        · cases h
        · simp only [Option.some.injEq, Prod.mk.injEq] at h
          rw [← h.2.2.1]
      · rcases hg : generate_birthdate_for_age t ag s0 with _ | ⟨nd, s2⟩ <;>
          rw [hg] at h <;> dsimp only at h
        · cases h
        · simp only [Option.some.injEq, Prod.mk.injEq] at h
          rw [← h.2.2.1]
    · rw [if_neg (by simp)] at h
      simp only [Option.some.injEq, Prod.mk.injEq] at h
      rw [← h.2.2.1]
  · rw [if_neg (by simp)] at h
    rcases dAge with _ | ag
    · rw [if_pos ⟨rfl, rfl⟩] at h
      rcases hr : random_age_and_dob t aLo aHi s0 with _ | ⟨⟨na, nd⟩, s2⟩ <;>
        rw [hr] at h <;> dsimp only at h
      · cases h
      · rcases hdkk : find_field_key r1 "Dob" with _ | dk <;> rw [hdkk] at h <;>
          dsimp only at h
        · simp only [Option.some.injEq, Prod.mk.injEq] at h
          rw [← h.2.2.1]
        · have hl := find_field_key_lower r1 "Dob" dk hdkk
          have hne : k ≠ dk := fun hc => hdob (by rw [hc, hl]; decide)
          rw [if_pos (by simp)] at h
          simp only [Option.some.injEq, Prod.mk.injEq] at h
          rw [← h.2.2.1]
          exact recGet_recSet_ne r1 dk k (.vDate nd) hne
    · rw [if_neg (by simp), if_neg (by simp)] at h
      simp only [Option.some.injEq, Prod.mk.injEq] at h
      rw [← h.2.2.1]
  · rw [if_pos ⟨rfl, rfl⟩] at h
    rcases dAge with _ | ag <;> rcases dDob with _ | d <;> dsimp only at h
    · rcases hr : random_age_and_dob t aLo aHi s0 with _ | ⟨⟨na, nd⟩, s2⟩ <;>
        rw [hr] at h <;> dsimp only at h
      · cases h
      · simp only [Option.some.injEq, Prod.mk.injEq] at h
        rw [← h.2.2.1]
    · simp only [Option.some.injEq, Prod.mk.injEq] at h
      rw [← h.2.2.1]
    · rcases hg : generate_birthdate_for_age t ag s0 with _ | ⟨nd, s2⟩ <;>
        rw [hg] at h <;> dsimp only at h
      · cases h
      · simp only [Option.some.injEq, Prod.mk.injEq] at h
        rw [← h.2.2.1]
    · simp only [Option.some.injEq, Prod.mk.injEq] at h
      rw [← h.2.2.1]

theorem update_fields_loop_frame (t : Date) (aLo aHi : Nat) (nty : Option String)
    (dobReq : Bool) (dobKey : Option String) (k : String)
    (hdk : ∀ dk, dobKey = some dk → dk ≠ k) :
    ∀ (ps : List (String × String)) (r : Record) (dA : Option Int)
      (dB : Option Date) (s : List Nat) (r2 : Record) (s2 : List Nat),
      (∀ p ∈ ps, p.1 ≠ k) →
      update_fields_loop t aLo aHi nty dobReq dobKey ps r dA dB s = some (r2, s2) →
      recGet r2 k = recGet r k := by
  intro ps
  induction ps with
  | nil =>
    intro r dA dB s r2 s2 _ h
    simp only [update_fields_loop] at h
    simp only [Option.some.injEq, Prod.mk.injEq] at h
    rw [← h.1]
  | cons p rest ih =>
    intro r dA dB s r2 s2 hadd h
    rcases p with ⟨f, nf⟩
    have hfk : k ≠ f := fun hc => hadd (f, nf) (List.mem_cons_self _ _) hc.symm
    have htail : ∀ p ∈ rest, p.1 ≠ k := fun p hp => hadd p (List.mem_cons_of_mem _ hp)
    simp only [update_fields_loop] at h
    by_cases hnf : nf = "age"
    · rw [if_pos hnf] at h
      rcases dA with _ | ag
      · dsimp only at h
        rcases hr : random_age_and_dob t aLo aHi s with _ | ⟨⟨na, nd⟩, s2x⟩ <;>
          rw [hr] at h <;> dsimp only at h
        · cases h
        · by_cases h4 : (dobReq = true) ∧ dB = none
          · rw [if_pos h4] at h
            exact (ih _ _ _ _ r2 s2 htail h).trans
              (recGet_recSet_ne r f k (.vInt na) hfk)
          · rw [if_neg h4] at h
            split at h
            · rename_i dk
              by_cases h5 : ¬dobReq = true
              · rw [if_pos h5] at h
                have hdknek : k ≠ dk := fun hc => hdk dk rfl hc.symm
                exact (ih _ _ _ _ r2 s2 htail h).trans
                  ((recGet_recSet_ne (recSet r dk (.vDate nd)) f k (.vInt na) hfk).trans
                    (recGet_recSet_ne r dk k (.vDate nd) hdknek))
              · rw [if_neg h5] at h
                exact (ih _ _ _ _ r2 s2 htail h).trans
                  (recGet_recSet_ne r f k (.vInt na) hfk)
            · exact (ih _ _ _ _ r2 s2 htail h).trans
                (recGet_recSet_ne r f k (.vInt na) hfk)
      · dsimp only at h
        exact (ih _ _ _ _ r2 s2 htail h).trans (recGet_recSet_ne r f k (.vInt ag) hfk)
    · rw [if_neg hnf] at h
      by_cases hnf2 : nf = "dob"
      · rw [if_pos hnf2] at h
        rcases dB with _ | d
        · dsimp only at h
          rcases dA with _ | ag
          · dsimp only at h
            rcases hr : random_age_and_dob t aLo aHi s with _ | ⟨⟨na2, nd2⟩, s2x⟩ <;>
              rw [hr] at h <;> dsimp only at h
            · cases h
            · exact (ih _ _ _ _ r2 s2 htail h).trans
                (recGet_recSet_ne r f k (.vDate nd2) hfk)
          · dsimp only at h
            rcases hg : generate_birthdate_for_age t ag s with _ | ⟨nd2, s2x⟩ <;>
              rw [hg] at h <;> dsimp only at h
            · cases h
            · exact (ih _ _ _ _ r2 s2 htail h).trans
                (recGet_recSet_ne r f k (.vDate nd2) hfk)
        · dsimp only at h
          exact (ih _ _ _ _ r2 s2 htail h).trans (recGet_recSet_ne r f k (.vDate d) hfk)
      · rw [if_neg hnf2] at h
        rcases hg : generate_entity_record t nty [f] s with _ | ⟨rg, sg⟩ <;>
          rw [hg] at h <;> dsimp only at h
        · cases h
        · rcases hgr : recGet rg f with _ | v <;> rw [hgr] at h <;> dsimp only at h
          · cases h
          · exact (ih _ _ _ _ r2 s2 htail h).trans (recGet_recSet_ne r f k v hfk)

theorem update_record_frame (t : Date) (aLo aHi : Nat) (nty : Option String)
    (addPairs : List (String × String)) (remF : List String) (r : Record)
    (s : List Nat) (r2 : Record) (s2 : List Nat) (k : String)
    (hrem : ∀ f ∈ remF, lowerStr k ≠ lowerStr f)
    (hadd : ∀ p ∈ addPairs, p.1 ≠ k)
    (hdob : lowerStr k ≠ "dob")
    (h : update_record t aLo aHi nty addPairs remF r s = some (r2, s2)) :
    recGet r2 k = recGet r k := by
  unfold update_record at h
  dsimp only at h
  rcases hds : dob_side t ((addPairs.map Prod.snd).contains "dob")
      (removal_pass remF r) s with _ | ⟨dB0, s0⟩ <;> rw [hds] at h <;> dsimp only at h
  · cases h
  · rcases hcb : coherence_branch t aLo aHi ((addPairs.map Prod.snd).contains "age")
        ((addPairs.map Prod.snd).contains "dob")
        (find_field_key (removal_pass remF r) "Dob") (removal_pass remF r)
        (desired_age_pre t ((addPairs.map Prod.snd).contains "age")
          (removal_pass remF r)) dB0 s0
      with _ | ⟨dA, dB, r3, s3⟩ <;> rw [hcb] at h <;> dsimp only at h
    · cases h
    · have hdk : ∀ dk, find_field_key (removal_pass remF r) "Dob" = some dk →
          dk ≠ k := by
        intro dk hdkk hc
        have hl := find_field_key_lower _ _ _ hdkk
        exact hdob (by rw [← hc, hl]; decide)
      have hfl := update_fields_loop_frame t aLo aHi nty
        ((addPairs.map Prod.snd).contains "dob")
        (find_field_key (removal_pass remF r) "Dob") k hdk addPairs r3 dA dB s3
        r2 s2 hadd h
      have hcf := coherence_branch_frame t aLo aHi
        ((addPairs.map Prod.snd).contains "age")
        ((addPairs.map Prod.snd).contains "dob") (removal_pass remF r)
        (desired_age_pre t ((addPairs.map Prod.snd).contains "age")
          (removal_pass remF r)) dB0 s0 dA dB r3 s3 k hdob hcb
      have hrf := removal_pass_frame k remF r hrem
      exact (hfl.trans hcf).trans hrf

theorem updateBatch_frame (t : Date) (aLo aHi : Nat) (nty : Option String)
    (addPairs : List (String × String)) (remF : List String) (k : String)
    (hrem : ∀ f ∈ remF, lowerStr k ≠ lowerStr f)
    (hadd : ∀ p ∈ addPairs, p.1 ≠ k)
    (hdob : lowerStr k ≠ "dob") :
    ∀ (batch : List Record) (s : List Nat) (batch2 : List Record) (s2 : List Nat),
      updateBatch t aLo aHi nty addPairs remF batch s = some (batch2, s2) →
      List.Forall₂ (fun r r2 => recGet r2 k = recGet r k) batch batch2 := by
  intro batch
  induction batch with
  | nil =>
    intro s batch2 s2 h
    unfold updateBatch at h
    simp only [Option.some.injEq, Prod.mk.injEq] at h
    rw [← h.1]
    exact List.Forall₂.nil
  | cons r0 rest ih =>
    intro s batch2 s2 h
    unfold updateBatch at h
    rcases hu : update_record t aLo aHi nty addPairs remF r0 s with _ | ⟨r0x, sx⟩ <;>
      rw [hu] at h <;> dsimp only at h
    · cases h
    · rcases hb : updateBatch t aLo aHi nty addPairs remF rest sx with _ | ⟨rest2, sy⟩ <;>
        rw [hb] at h <;> dsimp only at h
      · cases h
      · simp only [Option.some.injEq, Prod.mk.injEq] at h
        rw [← h.1]
        exact List.Forall₂.cons
          (update_record_frame t aLo aHi nty addPairs remF r0 s r0x sx k
            hrem hadd hdob hu)
          (ih sx rest2 sy hb)

/-- C1 (amended).  The spec's coherence invariant as claimed fails for the
`generic` entity type (see the counterexample), so it is proved here for the
recognized entity types: (1) a record generated under a recognized
(normalizable) entity type satisfies `derive_age(dob) == age` for every
age-labelled / DOB-labelled field pair, and (2) the update operation
preserves this property record by record: starting from a batch of
well-formed records, every record of the updated batch is again coherent. -/
theorem claim1_coherence_after_generation_and_update :
    (∀ (t : Date) (ty : Option String) (nt : String) (fields : List String)
      (s : List Nat) (r : Record) (s2 : List Nat), GoodToday t →
      normalizeEntityType ty = some nt →
      generate_entity_record t ty fields s = some (r, s2) → Coherent t r) ∧
    (∀ (t : Date) (sess : Session) (addRaw remRaw : List String) (s : List Nat)
      (sess2 : Session) (w : Bool) (s2 : List Nat), GoodToday t →
      (∀ batch r, sess.lastGenerated = some batch → r ∈ batch → WF t r) →
      update_last_generated t sess addRaw remRaw s = some (sess2, w, s2) →
      ∀ batch2 r, sess2.lastGenerated = some batch2 → r ∈ batch2 → Coherent t r) := by
  constructor
  · intro t ty nt fields s r s2 ht hnt hgen
    exact WF_Coherent t r (generate_entity_WF t ht ty nt hnt fields s r s2 hgen)
  · intro t sess addRaw remRaw s sess2 w s2 ht hWF hup batch2 r hb2 hr
    exact WF_Coherent t r
      (update_last_generated_WF t ht.1 ht.2 sess addRaw remRaw s sess2 w s2 hWF hup
        batch2 r hb2 hr)

/-- C1 counterexample: an unrecognized entity type ("alien", i.e. the
`generic` EntityType of the spec) fills the requested `Age` and `DOB`
fields with placeholder words, so the generated record violates the
coherence invariant the claim states for every EntityType. -/
theorem claim1_counterexample_generic_entity :
    ∃ r s2, generate_entity_record ⟨2025, 10, 12⟩ (some "alien") ["Age", "DOB"] [1, 2]
        = some (r, s2) ∧ ¬ Coherent ⟨2025, 10, 12⟩ r := by
  refine ⟨[("Age", .vStr "word1"), ("DOB", .vStr "word2")], [], rfl, fun hC => ?_⟩
  obtain ⟨a, d, h1, h2, h3⟩ := hC "Age" (.vStr "word1") "DOB" (.vStr "word2")
    (by decide) (by decide) (by decide) (by decide)
  cases h1

/-- C2: for every age `a` (up to 1000, which covers every entity range) with
`a + 2 ≤ today.year`, `generate_birthdate_for_age` succeeds and
`calculate_age_from_dob` applied to the produced date gives back exactly
`a`: the round trip through age is the identity. -/
theorem claim2_age_roundtrip (t : Date) (a : Nat) (s : List Nat)
    (hv : ValidDate t) (hy : a + 2 ≤ t.year) (ha : a ≤ 1000) :
    ∃ d s2, generate_birthdate_for_age t (a : Int) s = some (d, s2) ∧
      calculate_age_from_dob t d = (a : Int) := by
  obtain ⟨d, s2, heq, hvd, hex⟩ := generate_birthdate_spec t a s hv hy
  exact ⟨d, s2, heq, hex ha⟩

theorem claim2_age_roundtrip_witness :
    ∃ d s2, generate_birthdate_for_age ⟨2025, 10, 12⟩ ((18 : Nat) : Int) [] = some (d, s2) ∧
      calculate_age_from_dob ⟨2025, 10, 12⟩ d = ((18 : Nat) : Int) :=
  claim2_age_roundtrip ⟨2025, 10, 12⟩ 18 [] (by decide) (by decide) (by decide)

/-- C3 counterexample: `generate_birthdate_for_age` does not return a date
for every non-negative age: at age 1000000 the target year is far before
year 1, every candidate (including the fallback and its Feb-29 substitute)
fails `date` validation, and the Python code raises `OverflowError` /
`ValueError` (modeled as `none`) instead of returning a date. -/
theorem claim3_counterexample_overflow :
    generate_birthdate_for_age ⟨2025, 10, 12⟩ (1000000 : Int) [] = none := rfl

/-- C3 (amended): for ages that leave the target year inside the calendar
(`a + 2 ≤ today.year`), `generate_birthdate_for_age` always returns a valid
calendar date: the 20-attempt loop plus the deterministic year-shift
fallback (with Feb-29 replaced by March 1) never fails in that range. -/
theorem claim3_birthdate_total_amended (t : Date) (a : Nat) (s : List Nat)
    (hv : ValidDate t) (hy : a + 2 ≤ t.year) :
    ∃ d s2, generate_birthdate_for_age t (a : Int) s = some (d, s2) ∧ ValidDate d := by
  obtain ⟨d, s2, heq, hvd, _⟩ := generate_birthdate_spec t a s hv hy
  exact ⟨d, s2, heq, hvd⟩

theorem claim3_birthdate_total_witness :
    ∃ d s2, generate_birthdate_for_age ⟨2025, 10, 12⟩ ((25 : Nat) : Int) [] = some (d, s2) ∧
      ValidDate d :=
  claim3_birthdate_total_amended ⟨2025, 10, 12⟩ 25 [] (by decide) (by decide)

/-- C4: generating a bank-customer record with fields
`["Name", "DOB", "Balance"]` and then updating with add-field `"Age"`
writes `Age = calculate_age_from_dob(today, existing DOB)`, leaves the DOB
field unchanged, and draws nothing fresh (the returned stream is exactly
the input stream and the result flags no warning). -/
theorem claim4_add_age_uses_existing_dob (t : Date) (s : List Nat) (r : Record)
    (s1 : List Nat)
    (hgen : generate_entity_record t (some "bank_customer") ["Name", "DOB", "Balance"] s
      = some (r, s1)) :
    ∃ dob r2, recGet r "DOB" = some (.vDate dob) ∧
      update_last_generated t ⟨some [r], some "bank_customer"⟩ ["Age"] [] s1 =
        some (⟨some [r2], some "bank_customer"⟩, false, s1) ∧
      recGet r2 "Age" = some (.vInt (calculate_age_from_dob t dob)) ∧
      recGet r2 "DOB" = some (.vDate dob) := by
  rw [generate_entity_record_bank t (some "bank_customer") ["Name", "DOB", "Balance"] s
    (by decide)] at hgen
  unfold generate_bank_customer_record at hgen
  rcases hr : random_age_and_dob t 18 80 s with _ | ⟨⟨age, dob⟩, sr⟩ <;>
    rw [hr] at hgen <;> dsimp only at hgen
  · cases hgen
  · rw [show buildRecord (bankStep t age dob) ["Name", "DOB", "Balance"] [] sr =
      some ([("Name", .vStr ("name" ++ Nat.repr (sr.headD 0))),
             ("DOB", .vDate dob),
             ("Balance", .vFloat (Int.ofNat (1000 * 100 +
               (sr.tail).headD 0 % (100000 * 100 - 1000 * 100 + 1))))],
            (sr.tail).tail) from rfl] at hgen
    simp only [Option.some.injEq, Prod.mk.injEq] at hgen
    obtain ⟨h1, h2⟩ := hgen
    rw [← h1, ← h2]
    exact ⟨dob, _, rfl, rfl, rfl, rfl⟩

theorem claim4_add_age_witness :
    ∃ dob r2,
      recGet [("Name", Value.vStr "name0"), ("DOB", Value.vDate ⟨2006, 10, 17⟩),
        ("Balance", Value.vFloat 100000)] "DOB" = some (.vDate dob) ∧
      update_last_generated ⟨2025, 10, 12⟩
          ⟨some [[("Name", Value.vStr "name0"), ("DOB", Value.vDate ⟨2006, 10, 17⟩),
            ("Balance", Value.vFloat 100000)]], some "bank_customer"⟩ ["Age"] [] [] =
        some (⟨some [r2], some "bank_customer"⟩, false, []) ∧
      recGet r2 "Age" = some (.vInt (calculate_age_from_dob ⟨2025, 10, 12⟩ dob)) ∧
      recGet r2 "DOB" = some (.vDate dob) :=
  claim4_add_age_uses_existing_dob ⟨2025, 10, 12⟩ [] _ [] rfl

/-- C5: the update operation is a frame for every field label `k` that is
not removed (case-insensitively), not among the added labels (after the
title-case normalization the code applies to them), and not DOB-labelled
(the one sibling the coherence pass may re-synchronize in place): in the
updated batch, every record maps `k` to exactly its previous value. -/
theorem claim5_update_frame (t : Date) (sess : Session) (addRaw remRaw : List String)
    (s : List Nat) (sess2 : Session) (w : Bool) (s2 : List Nat)
    (batch batch2 : List Record) (k : String)
    (hb : sess.lastGenerated = some batch)
    (h : update_last_generated t sess addRaw remRaw s = some (sess2, w, s2))
    (hb2 : sess2.lastGenerated = some batch2)
    (hrem : ∀ f ∈ remRaw, lowerStr k ≠ lowerStr (pyStrip f))
    (hadd : ∀ f ∈ addRaw, pyTitle (pyStrip f) ≠ k)
    (hdob : lowerStr k ≠ "dob") :
    List.Forall₂ (fun r r2 => recGet r2 k = recGet r k) batch batch2 := by
  unfold update_last_generated at h
  rw [hb] at h
  rcases batch with _ | ⟨r0, rest⟩
  · dsimp only at h
    simp only [Option.some.injEq, Prod.mk.injEq] at h
    have hbe : batch2 = [] := by
      rw [← h.1, hb] at hb2
      injection hb2 with h9
      exact h9.symm
    rw [hbe]
    exact List.Forall₂.nil
  · dsimp only at h
    split at h
    · rename_i batch2x s2x heq
      simp only [Option.some.injEq, Prod.mk.injEq] at h
      obtain ⟨h1, h2, h3⟩ := h
      have hbe : batch2 = batch2x := by
        rw [← h1] at hb2
        dsimp only at hb2
        injection hb2 with h9
        exact h9.symm
      rw [hbe]
      refine updateBatch_frame t _ _ _ _ _ k ?_ ?_ hdob (r0 :: rest) s batch2x s2x heq
      · intro f2 hf2
        obtain ⟨f, hf, hfe⟩ := List.mem_map.mp hf2
        rw [← hfe, lowerStr_pyTitle]
        exact hrem f hf
      · intro p hp
        rcases p with ⟨p1, p2⟩
        have h9 := (List.of_mem_zip hp).1
        obtain ⟨f, hf, hfe⟩ := List.mem_map.mp h9
        rw [← hfe]
        exact hadd f hf
    · cases h

theorem claim5_update_frame_witness :
    List.Forall₂ (fun r r2 => recGet r2 "Name" = recGet r "Name")
      [[("Name", Value.vStr "x")]] [[("Name", Value.vStr "x")]] :=
  claim5_update_frame ⟨2025, 10, 12⟩
    ⟨some [[("Name", Value.vStr "x")]], some "bank_customer"⟩ [] ["Zipcode"] []
    ⟨some [[("Name", Value.vStr "x")]], some "bank_customer"⟩ false []
    [[("Name", Value.vStr "x")]] [[("Name", Value.vStr "x")]] "Name"
    rfl rfl rfl
    (by intro f hf; rw [List.mem_singleton] at hf; subst hf; decide)
    (fun f hf => absurd hf (List.not_mem_nil f))
    (by decide)

/-- C6: every record generated under a recognized entity type carries a
single drawn age lying in that type's `AGE_RANGES` entry — student 5–18,
college student 18–25, bank customer 18–80, employee 22–65 — and every
age-labelled field of the record holds exactly that age. -/
theorem claim6_age_ranges (t : Date) (ty : Option String) (nt : String)
    (fields : List String) (s : List Nat) (r : Record) (s2 : List Nat)
    (hnt : normalizeEntityType ty = some nt)
    (hgen : generate_entity_record t ty fields s = some (r, s2)) :
    ∃ age : Int, ((AGE_RANGES (some nt)).1 : Int) ≤ age ∧
      age ≤ ((AGE_RANGES (some nt)).2 : Int) ∧
      ∀ k v, (k, v) ∈ r → lowerStr k = "age" → v = .vInt age := by
  rcases normalizeEntityType_cases ty nt hnt with h4 | h4 | h4 | h4 <;> subst h4
  · rw [generate_entity_record_student t ty fields s hnt] at hgen
    obtain ⟨age, dob, s1, heq, hkv⟩ := generate_student_record_spec _ _ _ _ _ hgen
    obtain ⟨hb1, hb2⟩ := random_age_and_dob_range t 5 18 s age dob s1 (by decide) heq
    exact ⟨age, hb1, hb2, fun k v hm hl => (hkv k v hm).1 hl⟩
  · rw [generate_entity_record_college t ty fields s hnt] at hgen
    obtain ⟨age, dob, s1, heq, hkv⟩ := generate_college_student_record_spec _ _ _ _ _ hgen
    obtain ⟨hb1, hb2⟩ := random_age_and_dob_range t 18 25 s age dob s1 (by decide) heq
    exact ⟨age, hb1, hb2, fun k v hm hl => (hkv k v hm).1 hl⟩
  · rw [generate_entity_record_bank t ty fields s hnt] at hgen
    obtain ⟨age, dob, s1, heq, hkv⟩ := generate_bank_customer_record_spec _ _ _ _ _ hgen
    obtain ⟨hb1, hb2⟩ := random_age_and_dob_range t 18 80 s age dob s1 (by decide) heq
    exact ⟨age, hb1, hb2, fun k v hm hl => (hkv k v hm).1 hl⟩
  · rw [generate_entity_record_employee t ty fields s hnt] at hgen
    obtain ⟨age, dob, s1, heq, hkv⟩ := generate_employee_record_spec _ _ _ _ _ hgen
    obtain ⟨hb1, hb2⟩ := random_age_and_dob_range t 22 65 s age dob s1 (by decide) heq
    exact ⟨age, hb1, hb2, fun k v hm hl => (hkv k v hm).1 hl⟩

theorem claim6_age_ranges_witness :
    ∃ age : Int, ((AGE_RANGES (some "student")).1 : Int) ≤ age ∧
      age ≤ ((AGE_RANGES (some "student")).2 : Int) ∧
      ∀ k v, (k, v) ∈ ([] : Record) → lowerStr k = "age" → v = .vInt age :=
  claim6_age_ranges ⟨2025, 10, 12⟩ (some "student") "student" [] [] [] [] rfl rfl

/-- C7: every generated minor-student record is built from one shared drawn
age: each Age field holds it, each DOB field holds a date whose computed age
is exactly it, and each Grade field holds
`max 1 (min 12 (age - 4))` = `clamp(age - 4, 1, 12)`, which lies in
`[1, 12]`. -/
theorem claim7_student_grade (t : Date) (ht : GoodToday t) (fields : List String)
    (s : List Nat) (r : Record) (s2 : List Nat)
    (hgen : generate_student_record t fields s = some (r, s2)) :
    ∃ age dob, calculate_age_from_dob t dob = age ∧
      (1 : Int) ≤ max 1 (min 12 (age - 4)) ∧ max 1 (min 12 (age - 4)) ≤ 12 ∧
      ∀ k v, (k, v) ∈ r →
        (lowerStr k = "age" → v = .vInt age) ∧
        (lowerStr k = "dob" → v = .vDate dob) ∧
        (lowerStr k = "grade" → v = .vInt (max 1 (min 12 (age - 4)))) := by
  obtain ⟨age, dob, s1, heq, hkv⟩ := generate_student_record_spec _ _ _ _ _ hgen
  obtain ⟨_, _, hcd⟩ := rad_eq_exact t ht.1 ht.2 5 18 (by decide) (by decide)
    s age dob s1 heq
  have hg : age - 5 + 1 = age - 4 := by omega
  refine ⟨age, dob, hcd, le_max_left _ _, max_le (by norm_num) (min_le_left _ _), ?_⟩
  intro k v hm
  have h9 := hkv k v hm
  exact ⟨h9.1, h9.2.1, fun hl => by rw [h9.2.2 hl, hg]⟩

theorem claim7_student_grade_witness :
    ∃ age dob, calculate_age_from_dob ⟨2025, 10, 12⟩ dob = age ∧
      (1 : Int) ≤ max 1 (min 12 (age - 4)) ∧ max 1 (min 12 (age - 4)) ≤ 12 ∧
      ∀ k v, (k, v) ∈ ([] : Record) →
        (lowerStr k = "age" → v = .vInt age) ∧
        (lowerStr k = "dob" → v = .vDate dob) ∧
        (lowerStr k = "grade" → v = .vInt (max 1 (min 12 (age - 4)))) :=
  claim7_student_grade ⟨2025, 10, 12⟩ (by decide) [] [] [] [] rfl

/-- C8 counterexample: generating a post-secondary-student record with a
class-year field yields the integer 1 (from `random.randint(1, 4)`), not a
string label, so the value is never an element of
{"Freshman", ..., "Graduate"}. -/
theorem claim8_counterexample_year_numeric :
    ∃ r s2, generate_college_student_record ⟨2025, 10, 12⟩ ["Year"] [] = some (r, s2) ∧
      recGet r "Year" = some (.vInt 1) ∧
      ∀ lbl : String, recGet r "Year" ≠ some (.vStr lbl) := by
  refine ⟨[("Year", Value.vInt 1)], [], rfl, rfl, fun lbl hc => ?_⟩
  injection hc with h1
  cases h1

/-- C8 (amended): every class-year field of a generated
post-secondary-student record holds the integer `1 + s1.headD 0 % 4`
(i.e. `random.randint(1, 4)` on the stream as it stands after the shared
age/DOB draw), which lies in `[1, 4]` and does not depend on the drawn
age. -/
theorem claim8_class_year_amended (t : Date) (fields : List String) (s : List Nat)
    (r : Record) (s2 : List Nat)
    (hgen : generate_college_student_record t fields s = some (r, s2)) :
    ∃ age dob s1, random_age_and_dob t 18 25 s = some ((age, dob), s1) ∧
      ∀ k v, (k, v) ∈ r → lowerStr k = "year" →
        v = .vInt ((1 + s1.headD 0 % 4 : Nat) : Int) ∧
        (1 : Int) ≤ ((1 + s1.headD 0 % 4 : Nat) : Int) ∧
        ((1 + s1.headD 0 % 4 : Nat) : Int) ≤ 4 := by
  obtain ⟨age, dob, s1, heq, hkv⟩ := generate_college_student_record_spec _ _ _ _ _ hgen
  refine ⟨age, dob, s1, heq, fun k v hm hl => ?_⟩
  have h9 := (hkv k v hm).2.2 hl
  have hmod : s1.headD 0 % 4 < 4 := Nat.mod_lt _ (by norm_num)
  refine ⟨by rw [h9]; rfl, ?_, ?_⟩
  · exact_mod_cast Nat.le_add_right 1 (s1.headD 0 % 4)
  · exact_mod_cast (by omega : 1 + s1.headD 0 % 4 ≤ 4)

theorem claim8_class_year_witness :
    ∃ age dob s1, random_age_and_dob ⟨2025, 10, 12⟩ 18 25 [] = some ((age, dob), s1) ∧
      ∀ k v, (k, v) ∈ [("Year", Value.vInt 1)] → lowerStr k = "year" →
        v = .vInt ((1 + s1.headD 0 % 4 : Nat) : Int) ∧
        (1 : Int) ≤ ((1 + s1.headD 0 % 4 : Nat) : Int) ∧
        ((1 + s1.headD 0 % 4 : Nat) : Int) ≤ 4 :=
  claim8_class_year_amended ⟨2025, 10, 12⟩ ["Year"] [] [("Year", Value.vInt 1)] [] rfl

/-- C9: when the session holds no prior batch (`None` or an empty list),
the update operation returns the session unchanged together with the
warning flag, consumes nothing and raises nothing. -/
theorem claim9_empty_session_noop (t : Date) (sess : Session)
    (addRaw remRaw : List String) (s : List Nat)
    (h : sess.lastGenerated = none ∨ sess.lastGenerated = some []) :
    update_last_generated t sess addRaw remRaw s = some (sess, true, s) := by
  unfold update_last_generated
  rcases h with h | h
  · rw [h]
  · rw [h]

theorem claim9_empty_session_witness :
    update_last_generated ⟨2025, 10, 12⟩ ⟨none, none⟩ ["Age"] ["Name"] [3] =
      some (⟨none, none⟩, true, [3]) :=
  claim9_empty_session_noop ⟨2025, 10, 12⟩ ⟨none, none⟩ ["Age"] ["Name"] [3] (Or.inl rfl)

theorem removal_pass_absent (r : Record) (f : String)
    (h : ∀ k v, (k, v) ∈ r → lowerStr k ≠ lowerStr f) :
    removal_pass [f] r = r := by
  show (match find_field_key r f with
    | some k2 => recPop r k2
    | none => r) = r
  rcases hf : find_field_key r f with _ | k
  · rfl
  · obtain ⟨v, hv⟩ := find_field_key_mem r f k hf
    exact absurd (find_field_key_lower r f k hf) (h k v hv)

/-- C10: removing a field whose label matches no key of the record
case-insensitively is a silent no-op: the update pass on that record
succeeds (no exception), returns the record unchanged and consumes no
randomness. -/
theorem claim10_absent_removal_noop (t : Date) (aLo aHi : Nat) (nty : Option String)
    (f : String) (r : Record) (s : List Nat)
    (h : ∀ k v, (k, v) ∈ r → lowerStr k ≠ lowerStr f) :
    update_record t aLo aHi nty [] [f] r s = some (r, s) := by
  rw [show update_record t aLo aHi nty [] [f] r s = some (removal_pass [f] r, s) from rfl,
    removal_pass_absent r f h]

theorem claim10_absent_removal_witness :
    update_record ⟨2025, 10, 12⟩ 18 80 none [] ["Zipcode"] [("Name", Value.vStr "x")] [] =
      some ([("Name", Value.vStr "x")], []) :=
  claim10_absent_removal_noop ⟨2025, 10, 12⟩ 18 80 none "Zipcode"
    [("Name", Value.vStr "x")] []
    (by intro k v hm; rw [List.mem_singleton] at hm; injection hm with h1 h2; rw [h1]; decide)
